import Mathlib

/-!
# linux-epoll-echo: a shallow embedding of `src/server/server.c`

The program is a single C file: `setnonblocking`, `get_listen_socket` and `main`.
Everything it does is a system call, so the embedding runs the C code against

* a small model of the kernel state the calls read and write (`Kernel`: the table of
  open descriptors, the status-flag word of each descriptor, the epoll interest list),
  and
* an oracle (`World`) that fixes, for every call site, what the kernel answers: whether
  the call fails, and which descriptor number a successful `socket` / `accept` /
  `epoll_create1` hands out.

A run yields the list of system calls made, in order, with arguments and results
(`Res.calls`), the final kernel state, and the way the run ended (`Outcome`).

Conventions of the model:

* a descriptor-returning call gives `-1` or a natural number; a status-returning call
  gives `0` or `-1`; `getaddrinfo` gives any `int`;
* `close`, `fcntl` and `epoll_ctl` fail with `EBADF` on a descriptor that is not open,
  whatever the oracle says; all other failures are the oracle's choice;
* `F_GETFL` returns the flag word the kernel holds and a successful `F_SETFL` stores its
  argument;
* `perror` and `freeaddrinfo` touch no descriptor and are left out of the call list;
* the `events` array is only read in the iteration in which `epoll_wait` filled it, so
  it is passed along as the batch of that iteration;
* the `for (;;)` loop is driven by the list of rounds the kernel reports; when the list
  is used up the process is blocked in `epoll_wait` (`Outcome.blocked`).
-/

namespace Server

/-! ## Constants -/

/-- Source line 10: `#define BACKLOG 10`. -/
def BACKLOG : Int := 10

/-- Source line 11: `#define MAX_EVENTS 10`. -/
def MAX_EVENTS : Nat := 10

/-- Linux `<fcntl.h>`: `O_RDWR` is 02. -/
def O_RDWR : Nat := 2

/-- Linux `<fcntl.h>`: `O_NONBLOCK` is 04000 (octal), bit 11. -/
def O_NONBLOCK : Int := 2048

/-- Linux `<sys/epoll.h>`: `EPOLLIN` is 0x001. -/
def EPOLLIN : Int := 1

/-- Linux `<sys/epoll.h>`: `EPOLLET` is `1u << 31`. -/
def EPOLLET : Int := 2147483648

/-- Linux `<sys/epoll.h>`: `EPOLL_CTL_ADD` is 1. -/
def EPOLL_CTL_ADD : Int := 1

/-- Linux `<sys/epoll.h>`: `EPOLL_CTL_DEL` is 2. -/
def EPOLL_CTL_DEL : Int := 2

/-! ## Data -/

/-- The C `struct epoll_event`: the interest set and the `data.fd` member of the union. -/
structure epoll_event where
  events : Int
  data_fd : Int
deriving DecidableEq

/-- The fields of a `struct addrinfo` node that the program passes on. -/
structure addrinfo where
  ai_family : Int
  ai_socktype : Int
  ai_protocol : Int
  ai_addr : Int
deriving DecidableEq

/-- One system call (or `exit`) as the process issued it: arguments, then the result. -/
inductive Call where
  | getaddrinfo (rv : Int)
  | socket (ai : addrinfo) (r : Int)
  | setsockopt (fd : Int) (r : Int)
  | bind (fd : Int) (ai : addrinfo) (r : Int)
  | close (fd : Int) (r : Int)
  | fcntl_getfl (fd : Int) (r : Int)
  | fcntl_setfl (fd : Int) (arg : Int) (r : Int)
  | listen (fd : Int) (backlog : Int) (r : Int)
  | epoll_create1 (flags : Int) (r : Int)
  | epoll_ctl (epfd : Int) (op : Int) (fd : Int) (ev : epoll_event) (r : Int)
  | epoll_wait (epfd : Int) (maxevents : Nat) (timeout : Int) (r : Int)
  | accept (fd : Int) (r : Int)
  | exit (status : Int)
deriving DecidableEq

/-- One entry of an epoll interest list. -/
structure Interest where
  epfd : Int
  fd : Int
  ev : epoll_event
deriving DecidableEq

/-- The kernel state the program's calls depend on. -/
structure Kernel where
  /-- descriptors currently open in the process (newest first) -/
  open_fds : List Int
  /-- file status flags of each descriptor -/
  fl : Int → Nat
  /-- epoll registrations, oldest first -/
  interest : List Interest

/-- The process at `main`: standard input, output and error are open, nothing else. -/
def Kernel.boot : Kernel := ⟨[0, 1, 2], fun _ => O_RDWR, []⟩

/-- A successful `socket` / `accept` / `epoll_create1` puts descriptor `n` in the table;
a fresh descriptor is in blocking mode. -/
def Kernel.alloc (k : Kernel) (n : Nat) : Kernel :=
  ⟨(n : Int) :: k.open_fds, Function.update k.fl (n : Int) O_RDWR, k.interest⟩

/-- The kernel state after a descriptor-returning call: unchanged when the call failed. -/
def Kernel.grant (k : Kernel) : Option Nat → Kernel
  | none => k
  | some n => k.alloc n

/-- The descriptors registered in the epoll instance `epfd`, oldest first. -/
def Kernel.registered (k : Kernel) (epfd : Int) : List Int :=
  (k.interest.filter (fun i => i.epfd = epfd)).map Interest.fd

/-- Whether descriptor `fd` is open and in non-blocking mode. -/
def Kernel.nonblocking (k : Kernel) (fd : Int) : Bool :=
  decide (fd ∈ k.open_fds) && (k.fl fd).testBit 11

/-! ## Runs -/

/-- How a piece of the program ended: it returned a value, it called `exit`, or it is
blocked in `epoll_wait` because the kernel has nothing more to report. -/
inductive Outcome (α : Type) where
  | returned (a : α)
  | exited (status : Int)
  | blocked
deriving DecidableEq

/-- The result of running a piece of the program from some kernel state. -/
structure Res (α : Type) where
  calls : List Call
  k : Kernel
  out : Outcome α

/-- A piece of the program: a function of the kernel state it starts in. -/
def Proc (α : Type) : Type := Kernel → Res α

/-- Return without making a call. -/
def Proc.pure {α : Type} (a : α) : Proc α := fun k => ⟨[], k, .returned a⟩

/-- Sequencing: the second piece runs only if the first returned. -/
def Proc.bind {α β : Type} (m : Proc α) (f : α → Proc β) : Proc β := fun k =>
  match (m k).out with
  | .returned a => ⟨(m k).calls ++ (f a (m k).k).calls, (f a (m k).k).k, (f a (m k).k).out⟩
  | .exited s => ⟨(m k).calls, (m k).k, .exited s⟩
  | .blocked => ⟨(m k).calls, (m k).k, .blocked⟩

instance : Monad Proc where
  pure := Proc.pure
  bind := Proc.bind

/-! ## The oracle -/

/-- The `int` a descriptor-returning call gives back: `-1` on failure. -/
def fd_result : Option Nat → Int
  | none => -1
  | some n => (n : Int)

/-- The `int` a status-returning call gives back: `0` on success, `-1` on failure. -/
def status_result (ok : Bool) : Int := if ok then 0 else -1

/-- One resolver candidate together with what the kernel answers for it. -/
structure Cand where
  ai : addrinfo
  socket_r : Option Nat
  setsockopt_ok : Bool
  bind_ok : Bool

/-- Whether the kernel lets the two `fcntl` calls of one `setnonblocking` succeed. -/
structure FcntlOutcome where
  getfl_ok : Bool
  setfl_ok : Bool

/-- What the kernel answers in one pass through the accept branch. -/
structure Conn where
  accept_r : Option Nat
  fcntl : FcntlOutcome
  epoll_ctl_ok : Bool

/-- What the kernel answers in one iteration of the `for (;;)` loop: the batch
`epoll_wait` reports (`none`: it fails), and the answers for inner iteration `n`. -/
structure Round where
  wait_r : Option (List epoll_event)
  conns : Nat → Conn

/-- What the kernel answers over a whole run. -/
structure World where
  gai_r : Int
  bind_addr_list : List Cand
  listen_fcntl : FcntlOutcome
  listen_ok : Bool
  epoll_create1_r : Option Nat
  epoll_ctl_ok : Bool
  rounds : List Round

/-! ## System calls -/

namespace Sys

/-- The call `getaddrinfo(NULL, PORT, &hints, &bind_addr_list)`: returns `rv`. -/
def getaddrinfo (rv : Int) : Proc Int := fun k => ⟨[.getaddrinfo rv], k, .returned rv⟩

/-- The call `socket(family, socktype, protocol)`. -/
def socket (ai : addrinfo) (o : Option Nat) : Proc Int := fun k =>
  ⟨[.socket ai (fd_result o)], k.grant o, .returned (fd_result o)⟩

/-- The call `setsockopt(fd, SOL_SOCKET, SO_REUSEADDR, &yes, sizeof(int))`. -/
def setsockopt (fd : Int) (ok : Bool) : Proc Int := fun k =>
  ⟨[.setsockopt fd (status_result ok)], k, .returned (status_result ok)⟩

/-- The call `bind(fd, ai_addr, ai_addrlen)`. -/
def bind (fd : Int) (ai : addrinfo) (ok : Bool) : Proc Int := fun k =>
  ⟨[.bind fd ai (status_result ok)], k, .returned (status_result ok)⟩

/-- The call `close(fd)`: `EBADF` when `fd` is not open, and then nothing changes. -/
def close (fd : Int) : Proc Int := fun k =>
  ⟨[.close fd (status_result (decide (fd ∈ k.open_fds)))],
    ⟨k.open_fds.erase fd, k.fl, k.interest⟩,
    .returned (status_result (decide (fd ∈ k.open_fds)))⟩

/-- The result of `fcntl(fd, F_GETFL, 0)`: the flag word, or `-1` (`EBADF` when `fd` is
not open). -/
def getfl_result (k : Kernel) (fd : Int) (ok : Bool) : Int :=
  if fd ∈ k.open_fds ∧ ok = true then (k.fl fd : Int) else -1

/-- The call `fcntl(fd, F_GETFL, 0)`. -/
def fcntl_getfl (fd : Int) (ok : Bool) : Proc Int := fun k =>
  ⟨[.fcntl_getfl fd (getfl_result k fd ok)], k, .returned (getfl_result k fd ok)⟩

/-- The call `fcntl(fd, F_SETFL, arg)`: on success the flag word becomes `arg`;
`EBADF` when `fd` is not open. -/
def fcntl_setfl (fd : Int) (arg : Int) (ok : Bool) : Proc Int := fun k =>
  ⟨[.fcntl_setfl fd arg (status_result (decide (fd ∈ k.open_fds) && ok))],
    ⟨k.open_fds,
      if fd ∈ k.open_fds ∧ ok = true then Function.update k.fl fd arg.toNat else k.fl,
      k.interest⟩,
    .returned (status_result (decide (fd ∈ k.open_fds) && ok))⟩

/-- The call `listen(fd, backlog)`. -/
def listen (fd : Int) (backlog : Int) (ok : Bool) : Proc Int := fun k =>
  ⟨[.listen fd backlog (status_result ok)], k, .returned (status_result ok)⟩

/-- The call `epoll_create1(flags)`. -/
def epoll_create1 (flags : Int) (o : Option Nat) : Proc Int := fun k =>
  ⟨[.epoll_create1 flags (fd_result o)], k.grant o, .returned (fd_result o)⟩

/-- Whether `epoll_ctl(epfd, op, fd, &ev)` succeeds: `EBADF` when `epfd` or `fd` is
not open. -/
def ctl_ok (k : Kernel) (epfd fd : Int) (ok : Bool) : Bool :=
  decide (epfd ∈ k.open_fds) && decide (fd ∈ k.open_fds) && ok

/-- The interest list after a successful `epoll_ctl(epfd, op, fd, &ev)`:
`EPOLL_CTL_ADD` appends a registration, `EPOLL_CTL_DEL` removes the ones of `fd`. -/
def ctl_apply (l : List Interest) (epfd op fd : Int) (ev : epoll_event) : List Interest :=
  if op = EPOLL_CTL_ADD then l ++ [⟨epfd, fd, ev⟩]
  else if op = EPOLL_CTL_DEL then l.filter (fun i => ¬ (i.epfd = epfd ∧ i.fd = fd))
  else l

/-- The call `epoll_ctl(epfd, op, fd, &ev)`. -/
def epoll_ctl (epfd op fd : Int) (ev : epoll_event) (ok : Bool) : Proc Int := fun k =>
  ⟨[.epoll_ctl epfd op fd ev (status_result (ctl_ok k epfd fd ok))],
    ⟨k.open_fds, k.fl,
      if ctl_ok k epfd fd ok = true then ctl_apply k.interest epfd op fd ev else k.interest⟩,
    .returned (status_result (ctl_ok k epfd fd ok))⟩

/-- What `epoll_wait` hands back: the number of entries written, or `-1`, and the
entries, at most `maxevents` of them. -/
def wait_result (maxevents : Nat) : Option (List epoll_event) → Int × List epoll_event
  | none => (-1, [])
  | some b => (((b.take maxevents).length : Int), b.take maxevents)

/-- The call `epoll_wait(epfd, events, maxevents, timeout)`. -/
def epoll_wait (epfd : Int) (maxevents : Nat) (timeout : Int)
    (o : Option (List epoll_event)) : Proc (Int × List epoll_event) := fun k =>
  ⟨[.epoll_wait epfd maxevents timeout (wait_result maxevents o).1], k,
    .returned (wait_result maxevents o)⟩

/-- The call `accept(fd, &client_addr, &client_addr_len)`. -/
def accept (fd : Int) (o : Option Nat) : Proc Int := fun k =>
  ⟨[.accept fd (fd_result o)], k.grant o, .returned (fd_result o)⟩

/-- The call `exit(status)`. -/
def exit {α : Type} (status : Int) : Proc α := fun k => ⟨[.exit status], k, .exited status⟩

end Sys

/-! ## The program -/

/-- Source lines 15-22. -/
def setnonblocking (fd : Int) (o : FcntlOutcome) : Proc Int := do
  let flags ← Sys.fcntl_getfl fd o.getfl_ok
  if flags = -1 then
    pure (-1)
  else
    Sys.fcntl_setfl fd (Int.lor flags O_NONBLOCK) o.setfl_ok

/-- Source lines 137-155, the loop over the candidates. The argument is the current
value of `listen_fd`; the result is its final value and whether `tmp != NULL`, that is
whether the loop was left by `break`. -/
def bind_loop : List Cand → Int → Proc (Int × Bool)
  | [], listen_fd => pure (listen_fd, false)
  | c :: rest, _ => do
    let listen_fd ← Sys.socket c.ai c.socket_r
    if listen_fd = -1 then
      bind_loop rest listen_fd
    else do
      let r ← Sys.setsockopt listen_fd c.setsockopt_ok
      if r = -1 then
        Sys.exit 1
      else do
        let b ← Sys.bind listen_fd c.ai c.bind_ok
        if b = -1 then do
          let _ ← Sys.close listen_fd
          bind_loop rest listen_fd
        else
          pure (listen_fd, true)

/-- Source lines 164-181: what `get_listen_socket` does with the descriptor it has
bound. -/
def start_listening (listen_fd : Int) (w : World) : Proc Int := do
  let r ← setnonblocking listen_fd w.listen_fcntl
  if r = -1 then do
    let _ ← Sys.close listen_fd
    Sys.exit 1
  else do
    let l ← Sys.listen listen_fd BACKLOG w.listen_ok
    if l = -1 then do
      let _ ← Sys.close listen_fd
      Sys.exit 1
    else
      pure listen_fd

/-- Source lines 121-182. -/
def get_listen_socket (w : World) : Proc Int := do
  let rv ← Sys.getaddrinfo w.gai_r
  if rv ≠ 0 then
    pure rv
  else do
    let (listen_fd, found) ← bind_loop w.bind_addr_list 0
    if found = false then do
      if listen_fd ≠ -1 then do
        let _ ← Sys.close listen_fd
        Sys.exit 1
      else
        Sys.exit 1
    else
      start_listening listen_fd w

/-- The locals of `main` that live across iterations of its loop. -/
structure LoopState where
  listen_fd : Int
  epoll_fd : Int
  ev : epoll_event
deriving DecidableEq

/-- Source lines 27-58: `main` up to the `for (;;)`. -/
def main_setup (w : World) : Proc LoopState := do
  let listen_fd ← get_listen_socket w
  if listen_fd = -1 then
    Sys.exit 1
  else do
    let flags : Int := 0
    let epoll_fd ← Sys.epoll_create1 flags w.epoll_create1_r
    if epoll_fd = -1 then do
      let _ ← Sys.close listen_fd
      Sys.exit 1
    else do
      let ev0 : epoll_event := ⟨0, 0⟩
      let ev1 : epoll_event := ⟨EPOLLIN, ev0.data_fd⟩
      let ev : epoll_event := ⟨ev1.events, listen_fd⟩
      let r ← Sys.epoll_ctl epoll_fd EPOLL_CTL_ADD listen_fd ev w.epoll_ctl_ok
      if r = -1 then do
        let _ ← Sys.close epoll_fd
        let _ ← Sys.close listen_fd
        Sys.exit 1
      else
        pure ⟨listen_fd, epoll_fd, ev⟩

/-- Source lines 84-102: the branch taken when the tested entry carries `listen_fd`. -/
def accept_branch (st : LoopState) (c : Conn) : Proc LoopState := do
  let client_fd ← Sys.accept st.listen_fd c.accept_r
  if client_fd = -1 then do
    let _ ← Sys.close st.listen_fd
    let _ ← Sys.close st.epoll_fd
    Sys.exit 1
  else do
    let _ ← setnonblocking client_fd c.fcntl
    let ev1 : epoll_event := ⟨EPOLLIN, st.ev.data_fd⟩
    let ev : epoll_event := ⟨ev1.events, client_fd⟩
    let r ← Sys.epoll_ctl st.epoll_fd EPOLL_CTL_ADD client_fd ev c.epoll_ctl_ok
    if r = -1 then do
      let _ ← Sys.close client_fd
      let _ ← Sys.close st.listen_fd
      let _ ← Sys.close st.epoll_fd
      Sys.exit 1
    else
      pure ⟨st.listen_fd, st.epoll_fd, ev⟩

/-- Source lines 78-114: `for (int n = 0; n < num_fds; ++n)`, with `todo = num_fds - n`
iterations still to run. The test on line 83 reads `events->data.fd`, the first entry
of the array, in every iteration. -/
def for_events (events : List epoll_event) (conns : Nat → Conn) :
    Nat → Nat → LoopState → Proc LoopState
  | 0, _, st => pure st
  | todo + 1, n, st => do
    let st1 ← (if (events.getD 0 ⟨0, 0⟩).data_fd = st.listen_fd then
        accept_branch st (conns n)
      else
        pure st)
    for_events events conns todo (n + 1) st1

/-- Source lines 66-114: one iteration of the `for (;;)` loop. -/
def poll_iteration (st : LoopState) (r : Round) : Proc LoopState := do
  let timeout : Int := -1
  let (num_fds, events) ← Sys.epoll_wait st.epoll_fd MAX_EVENTS timeout r.wait_r
  if num_fds = -1 then do
    let _ ← Sys.close st.epoll_fd
    let _ ← Sys.close st.listen_fd
    Sys.exit 1
  else
    for_events events r.conns num_fds.toNat 0 st

/-- Source lines 61-115: the `for (;;)` loop, driven by what the kernel reports. When
the kernel has no further report the process stays blocked in `epoll_wait`. -/
def event_loop : List Round → LoopState → Proc Unit
  | [], _ => fun k => ⟨[], k, .blocked⟩
  | r :: rs, st => do
    let st1 ← poll_iteration st r
    event_loop rs st1

/-- Source lines 24-118. -/
def main (w : World) : Proc Int := do
  let st ← main_setup w
  event_loop w.rounds st
  pure 0

/-! ## Vocabulary for statements about runs -/

/-- The calls the candidate loop makes for a candidate that does not get bound: a
failed `socket`, or a socket whose `bind` fails and which is closed (once). -/
def failed_attempt (p : Cand) : List Call :=
  match p.socket_r with
  | none => [.socket p.ai (-1)]
  | some m => [.socket p.ai m, .setsockopt m 0, .bind m p.ai (-1), .close m 0]

/-- Whether the call is a `close`. -/
def Call.is_close : Call → Bool
  | .close _ _ => true
  | _ => false

/-- Whether the call is an `accept`. -/
def Call.is_accept : Call → Bool
  | .accept _ _ => true
  | _ => false

/-- Whether the call is an `epoll_ctl`. -/
def Call.is_epoll_ctl : Call → Bool
  | .epoll_ctl _ _ _ _ _ => true
  | _ => false

/-- Whether the call is one of `epoll_create1`, `epoll_ctl`, `epoll_wait`, `accept`
and returned `-1`. -/
def Call.main_failure : Call → Bool
  | .epoll_create1 _ r => decide (r = -1)
  | .epoll_ctl _ _ _ _ r => decide (r = -1)
  | .epoll_wait _ _ _ r => decide (r = -1)
  | .accept _ r => decide (r = -1)
  | _ => false

/-- The call list ends in `exit(1)`, reached through nothing but `close` calls from a
failed `epoll_create1`, `epoll_ctl`, `epoll_wait` or `accept`. -/
def ExitShape (cs : List Call) : Prop :=
  ∃ pre c closes, cs = pre ++ c :: closes ++ [Call.exit 1]
    ∧ (∀ x ∈ closes, x.is_close = true) ∧ c.main_failure = true

/-- A run that exits does so with status 1 and in the shape `ExitShape`. -/
def Res.exits_well {α : Type} (R : Res α) : Prop :=
  ∀ s, R.out = .exited s → s = 1 ∧ ExitShape R.calls

/-- The calls of the start-up are none of the calls `main` makes on the epoll instance. -/
def Call.bootstrap (c : Call) : Prop :=
  c.is_epoll_ctl = false ∧ c.is_accept = false ∧ c.main_failure = false

/-- Every `epoll_ctl` in the list adds, to the instance `E`, a descriptor that an `accept`
in the list returned, with interest set `EPOLLIN` and the descriptor as `data.fd`. -/
def RegOK (E : Int) (cs : List Call) : Prop :=
  ∀ epfd op fd ev r, Call.epoll_ctl epfd op fd ev r ∈ cs →
    epfd = E ∧ op = EPOLL_CTL_ADD ∧ ev = ⟨EPOLLIN, fd⟩ ∧ ∃ l, Call.accept l fd ∈ cs

/-- The states in which the process stands at the head of the `for (;;)` loop: the one
the start-up produces, and the ones reached from there by iterations that return. -/
inductive LoopHead (w : World) : Kernel → LoopState → Prop where
  | start (st : LoopState) :
      (main_setup w Kernel.boot).out = .returned st →
      LoopHead w (main_setup w Kernel.boot).k st
  | step (k : Kernel) (st : LoopState) (r : Round) (st1 : LoopState) :
      LoopHead w k st → (poll_iteration st r k).out = .returned st1 →
      LoopHead w (poll_iteration st r k).k st1

/-- The registry invariant: the listening descriptor is registered in the epoll instance,
and every registered descriptor is open. -/
def RegistryInv (k : Kernel) (st : LoopState) : Prop :=
  st.listen_fd ∈ k.registered st.epoll_fd ∧ ∀ i ∈ k.interest, i.fd ∈ k.open_fds

/-- Whether the call is a `setsockopt` that returned `-1`. -/
def Call.setsockopt_failed : Call → Bool
  | .setsockopt _ r => decide (r = -1)
  | _ => false

/-- At the head of the loop: the registry holds the listening descriptor and then the
clients, and the open descriptors are, counted with multiplicity, among the listening
descriptor, the epoll descriptor, the registered clients and the inherited ones. -/
def OpenInv (k : Kernel) (st : LoopState) : Prop :=
  ∃ cl, k.interest.map Interest.fd = st.listen_fd :: cl
    ∧ List.Subperm k.open_fds
        (st.listen_fd :: st.epoll_fd :: (cl ++ Kernel.boot.open_fds))

/-- At exit: the open descriptors are, counted with multiplicity, among the clients
registered (every registry entry after the first) and the inherited ones. -/
def ExitOpen (k : Kernel) : Prop :=
  List.Subperm k.open_fds ((k.interest.map Interest.fd).tail ++ Kernel.boot.open_fds)

/-- Whether the call is one of the calls of `get_listen_socket` that can fail
(`socket`, `setsockopt`, `bind`, `fcntl`, `listen`) and returned `-1`. -/
def Call.startup_failure : Call → Bool
  | .socket _ r => decide (r = -1)
  | .setsockopt _ r => decide (r = -1)
  | .bind _ _ r => decide (r = -1)
  | .fcntl_getfl _ r => decide (r = -1)
  | .fcntl_setfl _ _ r => decide (r = -1)
  | .listen _ _ r => decide (r = -1)
  | _ => false

/-- The call list ends in `exit(1)`, reached through nothing but `close` calls from a
failed `socket`, `setsockopt`, `bind`, `fcntl` or `listen`. -/
def StartupExitShape (cs : List Call) : Prop :=
  ∃ pre c closes, cs = pre ++ c :: closes ++ [Call.exit 1]
    ∧ (∀ x ∈ closes, x.is_close = true) ∧ c.startup_failure = true

/-! ## Worlds used as concrete inputs -/

/-- An IPv4 TCP candidate (`AF_INET`, `SOCK_STREAM`, `IPPROTO_TCP`). -/
def ai4 : addrinfo := ⟨2, 1, 6, 0⟩

/-- The kernel's answers for a connection that is accepted as descriptor `n` and
registered without any failure. -/
def served (n : Nat) : Conn := ⟨some n, ⟨true, true⟩, true⟩

/-- The kernel's answers when no connection is pending: `accept` fails. -/
def nothing_pending : Conn := ⟨none, ⟨true, true⟩, true⟩

/-- A start-up without failure: one candidate, its socket is descriptor 3, the epoll
instance is descriptor 4; then the given rounds. -/
def world_up (rounds : List Round) : World :=
  ⟨0, [⟨ai4, some 3, true, true⟩], ⟨true, true⟩, true, some 4, true, rounds⟩

/-- First round: a connection arrives and becomes descriptor 5. -/
def first_client : Round := ⟨some [⟨EPOLLIN, 3⟩], fun _ => served 5⟩

/-- Second round reports the listening socket (one pending connection) and then client 5. -/
def world_listen_then_client : World :=
  world_up [first_client,
    ⟨some [⟨EPOLLIN, 3⟩, ⟨EPOLLIN, 5⟩], fun n => if n = 0 then served 6 else nothing_pending⟩]

/-- Second round reports client 5 and then the listening socket. -/
def world_client_then_listen : World :=
  world_up [first_client, ⟨some [⟨EPOLLIN, 5⟩, ⟨EPOLLIN, 3⟩], fun _ => served 6⟩]

/-- Address resolution fails with `EAI_MEMORY` (`-10`); the epoll instance is descriptor 3. -/
def world_resolution_fails : World := ⟨-10, [], ⟨true, true⟩, true, some 3, true, []⟩

/-- A client is accepted as descriptor 5, then `epoll_wait` fails. -/
def world_wait_fails : World := world_up [first_client, ⟨none, fun _ => nothing_pending⟩]

/-- A client is accepted as descriptor 5, `F_SETFL` on it fails, its registration succeeds. -/
def world_setfl_fails : World :=
  world_up [⟨some [⟨EPOLLIN, 3⟩], fun _ => ⟨some 5, ⟨true, false⟩, true⟩⟩]

/-- The port is taken: the only candidate gets socket 3 and `bind` fails. -/
def world_port_taken : World :=
  ⟨0, [⟨ai4, some 3, true, false⟩], ⟨true, true⟩, true, some 4, true, []⟩

/-- The resolver succeeds with an empty list. -/
def world_no_candidate : World := ⟨0, [], ⟨true, true⟩, true, some 4, true, []⟩

/-- Four candidates: `socket` fails for the first, `bind` fails for the second (socket
3, closed again), the third gets socket 3 and binds, the fourth would get socket 4. -/
def world_third_candidate : World :=
  ⟨0, [⟨ai4, none, true, true⟩, ⟨ai4, some 3, true, false⟩, ⟨ai4, some 3, true, true⟩,
      ⟨ai4, some 4, true, true⟩], ⟨true, true⟩, true, some 4, true, []⟩

/-! ## Basic facts -/

@[simp] theorem bind_eq {α β : Type} (m : Proc α) (f : α → Proc β) :
    (m >>= f) = Proc.bind m f := rfl

@[simp] theorem pure_eq {α : Type} (a : α) : (pure a : Proc α) = Proc.pure a := rfl

theorem lor_O_NONBLOCK (a : Nat) :
    Int.lor (a : Int) O_NONBLOCK = ((a ||| 2048 : Nat) : Int) := rfl

@[simp] theorem natCast_ne_neg_one (n : Nat) : ¬ ((n : Int) = -1) := by omega

/-! ## `setnonblocking` -/

/-- C6: on an open descriptor on which `F_GETFL` and `F_SETFL` succeed, `setnonblocking`
returns 0 the first and the second time, the flag word after the second call is the
flag word after the first, and that word is the initial one with `O_NONBLOCK` (bit 11)
set and every other bit unchanged. -/
theorem setnonblocking_idempotent (fd : Int) (o1 o2 : FcntlOutcome) (k : Kernel)
    (hopen : fd ∈ k.open_fds)
    (h1g : o1.getfl_ok = true) (h1s : o1.setfl_ok = true)
    (h2g : o2.getfl_ok = true) (h2s : o2.setfl_ok = true) :
    (setnonblocking fd o1 k).out = .returned 0
    ∧ (setnonblocking fd o2 (setnonblocking fd o1 k).k).out = .returned 0
    ∧ (setnonblocking fd o2 (setnonblocking fd o1 k).k).k.fl fd
        = (setnonblocking fd o1 k).k.fl fd
    ∧ (setnonblocking fd o1 k).k.fl fd = k.fl fd ||| 2048
    ∧ (∀ i, ((setnonblocking fd o1 k).k.fl fd).testBit i
        = ((k.fl fd).testBit i || decide (i = 11)))
    ∧ (setnonblocking fd o2 (setnonblocking fd o1 k).k).k.open_fds = k.open_fds := by
  have h2048 : (2048 : Nat) = 2 ^ 11 := by norm_num
  simp only [setnonblocking, bind_eq, pure_eq, Proc.bind, Proc.pure, Sys.fcntl_getfl,
    Sys.fcntl_setfl, Sys.getfl_result, status_result, hopen, h1g, h1s, h2g, h2s,
    natCast_ne_neg_one, lor_O_NONBLOCK,
    and_self, if_true, if_false, Int.toNat_ofNat, Function.update_same, Nat.or_assoc,
    Nat.or_self, true_and, Nat.testBit_or, decide_True, Bool.and_self, List.append_nil]
  refine ⟨fun i => ?_, trivial⟩
  rw [h2048, Nat.testBit_two_pow]
  by_cases h : i = 11 <;> simp [h, eq_comm]

/-- C6 at a fresh socket: descriptor 3 with flag word `O_RDWR`. -/
theorem setnonblocking_idempotent_witness :
    (3 : Int) ∈ (Kernel.boot.alloc 3).open_fds
    ∧ ((setnonblocking 3 ⟨true, true⟩ (Kernel.boot.alloc 3)).out = .returned 0
    ∧ (setnonblocking 3 ⟨true, true⟩
        (setnonblocking 3 ⟨true, true⟩ (Kernel.boot.alloc 3)).k).out = .returned 0
    ∧ (setnonblocking 3 ⟨true, true⟩
        (setnonblocking 3 ⟨true, true⟩ (Kernel.boot.alloc 3)).k).k.fl 3
        = (setnonblocking 3 ⟨true, true⟩ (Kernel.boot.alloc 3)).k.fl 3
    ∧ (setnonblocking 3 ⟨true, true⟩ (Kernel.boot.alloc 3)).k.fl 3
        = (Kernel.boot.alloc 3).fl 3 ||| 2048
    ∧ (∀ i, ((setnonblocking 3 ⟨true, true⟩ (Kernel.boot.alloc 3)).k.fl 3).testBit i
        = (((Kernel.boot.alloc 3).fl 3).testBit i || decide (i = 11)))
    ∧ (setnonblocking 3 ⟨true, true⟩
        (setnonblocking 3 ⟨true, true⟩ (Kernel.boot.alloc 3)).k).k.open_fds
        = (Kernel.boot.alloc 3).open_fds) :=
  ⟨by decide,
    setnonblocking_idempotent 3 ⟨true, true⟩ ⟨true, true⟩ (Kernel.boot.alloc 3)
      (by decide) rfl rfl rfl rfl⟩


/-! ## `get_listen_socket` -/

theorem bind_loop_skip (pre : List Cand) :
    ∀ (rest : List Cand) (fd0 : Int) (k : Kernel),
    (∀ p ∈ pre, p.setsockopt_ok = true) →
    (∀ p ∈ pre, p.socket_r = none ∨ p.bind_ok = false) →
    ∃ fd1 k1, k1.open_fds = k.open_fds ∧ k1.interest = k.interest
      ∧ bind_loop (pre ++ rest) fd0 k =
        ⟨pre.flatMap failed_attempt ++ (bind_loop rest fd1 k1).calls,
          (bind_loop rest fd1 k1).k, (bind_loop rest fd1 k1).out⟩ := by
  induction pre with
  | nil =>
    intro rest fd0 k _ _
    exact ⟨fd0, k, rfl, rfl, by simp⟩
  | cons p pre ih =>
    intro rest fd0 k hsso hpre
    have hp_sso : p.setsockopt_ok = true := hsso p (by simp)
    have hp := hpre p (by simp)
    have hsso' : ∀ q ∈ pre, q.setsockopt_ok = true := fun q hq => hsso q (by simp [hq])
    have hpre' : ∀ q ∈ pre, q.socket_r = none ∨ q.bind_ok = false :=
      fun q hq => hpre q (by simp [hq])
    cases hs : p.socket_r with
    | none =>
      obtain ⟨fd1, k1, ho, hi, heq⟩ := ih rest (-1) k hsso' hpre'
      refine ⟨fd1, k1, ho, hi, ?_⟩
      simp [bind_loop, Proc.bind, Sys.socket, hs, heq, failed_attempt, fd_result, Kernel.grant]
    | some m =>
      have hb : p.bind_ok = false := by
        rcases hp with h | h
        · simp [hs] at h
        · exact h
      obtain ⟨fd1, k1, ho, hi, heq⟩ := ih rest (m : Int)
        ⟨k.open_fds, Function.update k.fl (m : Int) O_RDWR, k.interest⟩ hsso' hpre'
      refine ⟨fd1, k1, ho, hi, ?_⟩
      simp [bind_loop, Proc.bind, Proc.pure, Sys.socket, Sys.setsockopt, Sys.bind, Sys.close,
        Kernel.alloc, Kernel.grant, fd_result, status_result, hs, hp_sso, hb, heq, failed_attempt]

theorem start_listening_returned {fd v : Int} {w : World} {k : Kernel}
    (h : (start_listening fd w k).out = .returned v) : v = fd := by
  by_cases h1 : Sys.getfl_result k fd w.listen_fcntl.getfl_ok = -1
  · simp [start_listening, setnonblocking, Proc.bind, Proc.pure,
      Sys.fcntl_getfl, Sys.fcntl_setfl, Sys.listen, Sys.close, Sys.exit, h1] at h
  · by_cases h2 : status_result (decide (fd ∈ k.open_fds) && w.listen_fcntl.setfl_ok) = -1
    · simp [start_listening, setnonblocking, Proc.bind, Proc.pure,
        Sys.fcntl_getfl, Sys.fcntl_setfl, Sys.listen, Sys.close, Sys.exit, h1, h2] at h
    · by_cases h3 : status_result w.listen_ok = -1
      · simp [start_listening, setnonblocking, Proc.bind, Proc.pure,
          Sys.fcntl_getfl, Sys.fcntl_setfl, Sys.listen, Sys.close, Sys.exit, h1, h2, h3] at h
      · simp [start_listening, setnonblocking, Proc.bind, Proc.pure,
          Sys.fcntl_getfl, Sys.fcntl_setfl, Sys.listen, Sys.close, Sys.exit, h1, h2, h3] at h
        exact h.symm

/-- C5: when resolution succeeds and no `setsockopt` fails, the candidate loop goes
through the list in order: for each candidate before the first one whose `socket` and
`bind` both succeed it makes exactly the calls of `failed_attempt` (a socket whose `bind`
failed is closed once), then it creates, configures and binds that first candidate's
socket and stops, and `get_listen_socket` goes on with that descriptor (it is the only
value it can return); when no candidate has both calls succeed the process exits with
status 1. -/
theorem first_bindable_candidate_is_used (w : World) (k : Kernel) (hgai : w.gai_r = 0)
    (hsso : ∀ p ∈ w.bind_addr_list, p.setsockopt_ok = true) :
    (∀ (pre post : List Cand) (c : Cand) (n : Nat),
      w.bind_addr_list = pre ++ c :: post →
      (∀ p ∈ pre, p.socket_r = none ∨ p.bind_ok = false) →
      c.socket_r = some n → c.bind_ok = true →
      (bind_loop w.bind_addr_list 0 k).out = .returned ((n : Int), true)
      ∧ (bind_loop w.bind_addr_list 0 k).calls
        = pre.flatMap failed_attempt ++ [.socket c.ai n, .setsockopt n 0, .bind n c.ai 0]
      ∧ (bind_loop w.bind_addr_list 0 k).k.open_fds = (n : Int) :: k.open_fds
      ∧ (get_listen_socket w k).calls
        = .getaddrinfo 0 :: (bind_loop w.bind_addr_list 0 k).calls
          ++ (start_listening n w (bind_loop w.bind_addr_list 0 k).k).calls
      ∧ (get_listen_socket w k).out
        = (start_listening n w (bind_loop w.bind_addr_list 0 k).k).out
      ∧ ∀ v, (get_listen_socket w k).out = .returned v → v = n)
    ∧ ((∀ p ∈ w.bind_addr_list, p.socket_r = none ∨ p.bind_ok = false) →
      (get_listen_socket w k).out = .exited 1
      ∧ (bind_loop w.bind_addr_list 0 k).calls = w.bind_addr_list.flatMap failed_attempt) := by
  constructor
  · intro pre post c n hlist hpre hsock hbind
    have hsso' : ∀ p ∈ pre, p.setsockopt_ok = true := fun p hp => hsso p (by simp [hlist, hp])
    have hc_sso : c.setsockopt_ok = true := hsso c (by simp [hlist])
    obtain ⟨fd1, k1, ho, hi, heq⟩ := bind_loop_skip pre (c :: post) 0 k hsso' hpre
    have hc : bind_loop (c :: post) fd1 k1
        = ⟨[.socket c.ai n, .setsockopt n 0, .bind n c.ai 0], k1.alloc n, .returned ((n : Int), true)⟩ := by
      simp [bind_loop, Proc.bind, Proc.pure, Sys.socket, Sys.setsockopt, Sys.bind,
        status_result, fd_result, Kernel.grant, hsock, hc_sso, hbind]
    rw [hc] at heq
    have hout : (bind_loop w.bind_addr_list 0 k).out = .returned ((n : Int), true) := by
      rw [hlist, heq]
    have h2 : (get_listen_socket w k).out
        = (start_listening n w (bind_loop w.bind_addr_list 0 k).k).out := by
      simp [get_listen_socket, Proc.bind, Proc.pure, Sys.getaddrinfo, hgai, hout]
    refine ⟨hout, by rw [hlist, heq], by rw [hlist, heq]; simp [Kernel.alloc, ho], ?_, h2, ?_⟩
    · simp [get_listen_socket, Proc.bind, Proc.pure, Sys.getaddrinfo, hgai, hout]
    · intro v hv
      rw [h2] at hv
      exact start_listening_returned hv
  · intro hall
    obtain ⟨fd1, k1, ho, hi, heq⟩ := bind_loop_skip w.bind_addr_list [] 0 k hsso hall
    simp only [List.append_nil] at heq
    have hnil : bind_loop [] fd1 k1 = ⟨[], k1, .returned (fd1, false)⟩ := rfl
    rw [hnil] at heq
    have hout : (bind_loop w.bind_addr_list 0 k).out = .returned (fd1, false) := by rw [heq]
    constructor
    · by_cases h : fd1 = -1 <;>
        simp [get_listen_socket, Proc.bind, Proc.pure, Sys.getaddrinfo, hgai, hout, h,
          Sys.close, Sys.exit]
    · rw [heq]; simp
/-! ## The accept branch -/

theorem setnonblocking_frame (fd : Int) (o : FcntlOutcome) (k : Kernel) :
    (∃ v, (setnonblocking fd o k).out = .returned v)
    ∧ (setnonblocking fd o k).k.open_fds = k.open_fds
    ∧ (setnonblocking fd o k).k.interest = k.interest
    ∧ ∀ c ∈ (setnonblocking fd o k).calls,
        c.is_close = false ∧ c.is_accept = false ∧ c.is_epoll_ctl = false
        ∧ c.main_failure = false := by
  by_cases h1 : Sys.getfl_result k fd o.getfl_ok = -1
  · simp [setnonblocking, Proc.bind, Proc.pure, Sys.fcntl_getfl, Sys.fcntl_setfl, h1,
      Call.is_close, Call.is_accept, Call.is_epoll_ctl, Call.main_failure]
  · simp [setnonblocking, Proc.bind, Proc.pure, Sys.fcntl_getfl, Sys.fcntl_setfl, h1,
      Call.is_close, Call.is_accept, Call.is_epoll_ctl, Call.main_failure]

theorem accept_branch_none (st : LoopState) (c : Conn) (k : Kernel) (h : c.accept_r = none) :
    accept_branch st c k =
      ⟨[.accept st.listen_fd (-1),
          .close st.listen_fd (status_result (decide (st.listen_fd ∈ k.open_fds))),
          .close st.epoll_fd
            (status_result (decide (st.epoll_fd ∈ k.open_fds.erase st.listen_fd))),
          .exit 1],
        ⟨(k.open_fds.erase st.listen_fd).erase st.epoll_fd, k.fl, k.interest⟩,
        .exited 1⟩ := by
  simp [accept_branch, Proc.bind, Sys.accept, Sys.close, Sys.exit, h, fd_result, Kernel.grant]

theorem accept_branch_some (st : LoopState) (c : Conn) (k : Kernel) (n : Nat)
    (h : c.accept_r = some n) :
    accept_branch st c k =
      if Sys.ctl_ok (setnonblocking n c.fcntl (k.alloc n)).k st.epoll_fd n
          c.epoll_ctl_ok = true then
        ⟨.accept st.listen_fd n :: (setnonblocking n c.fcntl (k.alloc n)).calls
            ++ [.epoll_ctl st.epoll_fd EPOLL_CTL_ADD n ⟨EPOLLIN, n⟩ 0],
          ⟨(n : Int) :: k.open_fds, (setnonblocking n c.fcntl (k.alloc n)).k.fl,
            k.interest ++ [⟨st.epoll_fd, n, ⟨EPOLLIN, n⟩⟩]⟩,
          .returned ⟨st.listen_fd, st.epoll_fd, ⟨EPOLLIN, n⟩⟩⟩
      else
        ⟨.accept st.listen_fd n :: (setnonblocking n c.fcntl (k.alloc n)).calls
            ++ [.epoll_ctl st.epoll_fd EPOLL_CTL_ADD n ⟨EPOLLIN, n⟩ (-1),
              .close n 0,
              .close st.listen_fd (status_result (decide (st.listen_fd ∈ k.open_fds))),
              .close st.epoll_fd
                (status_result (decide (st.epoll_fd ∈ k.open_fds.erase st.listen_fd))),
              .exit 1],
          ⟨(k.open_fds.erase st.listen_fd).erase st.epoll_fd,
            (setnonblocking n c.fcntl (k.alloc n)).k.fl, k.interest⟩,
          .exited 1⟩ := by
  obtain ⟨⟨v, hv⟩, ho, hi, -⟩ := setnonblocking_frame n c.fcntl (k.alloc n)
  have ho' : (setnonblocking n c.fcntl (k.alloc n)).k.open_fds = (n : Int) :: k.open_fds := by
    rw [ho]; rfl
  have hi' : (setnonblocking n c.fcntl (k.alloc n)).k.interest = k.interest := by
    rw [hi]; rfl
  by_cases hc : Sys.ctl_ok (setnonblocking n c.fcntl (k.alloc n)).k st.epoll_fd n
      c.epoll_ctl_ok = true
  · simp [accept_branch, Proc.bind, Proc.pure, Sys.accept, Sys.close, Sys.exit, Sys.epoll_ctl,
      h, fd_result, Kernel.grant, hv, hc, status_result, ho', hi', Sys.ctl_apply]
  · simp [accept_branch, Proc.bind, Proc.pure, Sys.accept, Sys.close, Sys.exit, Sys.epoll_ctl,
      h, fd_result, Kernel.grant, hv, hc, status_result, ho', hi', Sys.ctl_apply]
/-! ## Exits of the loop -/

theorem ExitShape.append_left {cs : List Call} (h : ExitShape cs) (cs0 : List Call) :
    ExitShape (cs0 ++ cs) := by
  obtain ⟨pre, c, closes, rfl, h1, h2⟩ := h
  exact ⟨cs0 ++ pre, c, closes, by simp, h1, h2⟩

theorem ExitShape.has_failure {cs : List Call} (h : ExitShape cs) :
    ∃ c ∈ cs, c.main_failure = true := by
  obtain ⟨pre, c, closes, rfl, -, h2⟩ := h
  exact ⟨c, by simp, h2⟩

theorem bind_returned {α β : Type} {m : Proc α} {f : α → Proc β} {k : Kernel} {a : α}
    (h : (m k).out = .returned a) :
    Proc.bind m f k
      = ⟨(m k).calls ++ (f a (m k).k).calls, (f a (m k).k).k, (f a (m k).k).out⟩ := by
  simp [Proc.bind, h]

theorem bind_exited {α β : Type} {m : Proc α} {f : α → Proc β} {k : Kernel} {s : Int}
    (h : (m k).out = .exited s) :
    Proc.bind m f k = ⟨(m k).calls, (m k).k, .exited s⟩ := by
  simp [Proc.bind, h]

theorem bind_blocked {α β : Type} {m : Proc α} {f : α → Proc β} {k : Kernel}
    (h : (m k).out = .blocked) :
    Proc.bind m f k = ⟨(m k).calls, (m k).k, .blocked⟩ := by
  simp [Proc.bind, h]

theorem bind_exits_well {α β : Type} {m : Proc α} {f : α → Proc β} {k : Kernel}
    (hm : (m k).exits_well)
    (hf : ∀ a, (m k).out = .returned a → (f a (m k).k).exits_well) :
    (Proc.bind m f k).exits_well := by
  intro s hs
  cases hout : (m k).out with
  | returned a =>
    rw [bind_returned hout] at hs ⊢
    obtain ⟨h1, h2⟩ := hf a hout s hs
    exact ⟨h1, h2.append_left _⟩
  | exited s' =>
    rw [bind_exited hout] at hs ⊢
    simp only [Outcome.exited.injEq] at hs
    subst hs
    exact hm s' hout
  | blocked =>
    rw [bind_blocked hout] at hs
    simp at hs

theorem accept_branch_exits_well (st : LoopState) (c : Conn) (k : Kernel) :
    (accept_branch st c k).exits_well ∧ (accept_branch st c k).out ≠ .blocked
    ∧ ∀ st1, (accept_branch st c k).out = .returned st1 →
        st1.listen_fd = st.listen_fd ∧ st1.epoll_fd = st.epoll_fd := by
  cases h : c.accept_r with
  | none =>
    rw [accept_branch_none st c k h]
    refine ⟨?_, by simp, by simp⟩
    intro s hs
    simp only [Outcome.exited.injEq] at hs
    refine ⟨hs.symm, [], _, [_, _] , rfl, ?_, ?_⟩
    · simp [Call.is_close]
    · simp [Call.main_failure]
  | some n =>
    rw [accept_branch_some st c k n h]
    split_ifs with hc
    · refine ⟨?_, by simp, by simp⟩
      intro s hs
      simp at hs
    · refine ⟨?_, by simp, by simp⟩
      intro s hs
      simp only [Outcome.exited.injEq] at hs
      refine ⟨hs.symm, .accept st.listen_fd n :: (setnonblocking n c.fcntl (k.alloc n)).calls,
        .epoll_ctl st.epoll_fd EPOLL_CTL_ADD n ⟨EPOLLIN, n⟩ (-1),
        [.close n 0,
          .close st.listen_fd (status_result (decide (st.listen_fd ∈ k.open_fds))),
          .close st.epoll_fd
            (status_result (decide (st.epoll_fd ∈ k.open_fds.erase st.listen_fd)))],
        by simp, ?_, ?_⟩
      · simp [Call.is_close]
      · simp [Call.main_failure]

theorem for_events_exits_well (events : List epoll_event) (conns : Nat → Conn) (todo : Nat) :
    ∀ (n : Nat) (st : LoopState) (k : Kernel),
    (for_events events conns todo n st k).exits_well
    ∧ (for_events events conns todo n st k).out ≠ .blocked
    ∧ ∀ st1, (for_events events conns todo n st k).out = .returned st1 →
        st1.listen_fd = st.listen_fd ∧ st1.epoll_fd = st.epoll_fd := by
  induction todo with
  | zero =>
    intro n st k
    simp [for_events, Proc.pure, Res.exits_well]
  | succ todo ih =>
    intro n st k
    by_cases hc : (events.getD 0 ⟨0, 0⟩).data_fd = st.listen_fd
    · obtain ⟨h1, h2, h3⟩ := accept_branch_exits_well st (conns n) k
      have heq : for_events events conns (todo + 1) n st k
          = Proc.bind (accept_branch st (conns n))
              (fun st1 => for_events events conns todo (n + 1) st1) k := by
        rw [for_events]; simp only [bind_eq, pure_eq, if_pos hc]
      rw [heq]
      refine ⟨bind_exits_well h1 (fun a _ => (ih (n + 1) a _).1), ?_, ?_⟩
      · cases hout : (accept_branch st (conns n) k).out with
        | returned a => rw [bind_returned hout]; exact (ih (n + 1) a _).2.1
        | exited s => rw [bind_exited hout]; simp
        | blocked => exact absurd hout h2
      · intro st1
        cases hout : (accept_branch st (conns n) k).out with
        | returned a =>
          rw [bind_returned hout]
          intro hr
          obtain ⟨e1, e2⟩ := (ih (n + 1) a _).2.2 st1 hr
          obtain ⟨e3, e4⟩ := h3 a hout
          exact ⟨e1.trans e3, e2.trans e4⟩
        | exited s => rw [bind_exited hout]; simp
        | blocked => exact absurd hout h2
    · have heq : for_events events conns (todo + 1) n st k
          = for_events events conns todo (n + 1) st k := by
        rw [for_events]; simp only [bind_eq, pure_eq, if_neg hc]
        simp [Proc.bind, Proc.pure]
      rw [heq]
      exact ih (n + 1) st k

theorem poll_iteration_none (st : LoopState) (r : Round) (k : Kernel) (h : r.wait_r = none) :
    poll_iteration st r k =
      ⟨[.epoll_wait st.epoll_fd MAX_EVENTS (-1) (-1),
          .close st.epoll_fd (status_result (decide (st.epoll_fd ∈ k.open_fds))),
          .close st.listen_fd
            (status_result (decide (st.listen_fd ∈ k.open_fds.erase st.epoll_fd))),
          .exit 1],
        ⟨(k.open_fds.erase st.epoll_fd).erase st.listen_fd, k.fl, k.interest⟩,
        .exited 1⟩ := by
  simp [poll_iteration, Proc.bind, Sys.epoll_wait, Sys.wait_result, Sys.close, Sys.exit, h]

theorem poll_iteration_some (st : LoopState) (r : Round) (k : Kernel) (b : List epoll_event)
    (h : r.wait_r = some b) :
    poll_iteration st r k =
      ⟨.epoll_wait st.epoll_fd MAX_EVENTS (-1) ((b.take MAX_EVENTS).length : Int)
          :: (for_events (b.take MAX_EVENTS) r.conns (b.take MAX_EVENTS).length 0 st k).calls,
        (for_events (b.take MAX_EVENTS) r.conns (b.take MAX_EVENTS).length 0 st k).k,
        (for_events (b.take MAX_EVENTS) r.conns (b.take MAX_EVENTS).length 0 st k).out⟩ := by
  have hne : ¬ (((b.take MAX_EVENTS).length : Int) = -1) := by omega
  simp only [poll_iteration, bind_eq, Proc.bind, Sys.epoll_wait, Sys.wait_result, h, hne,
    if_false, Int.toNat_ofNat, List.singleton_append]

theorem poll_iteration_exits_well (st : LoopState) (r : Round) (k : Kernel) :
    (poll_iteration st r k).exits_well ∧ (poll_iteration st r k).out ≠ .blocked
    ∧ ∀ st1, (poll_iteration st r k).out = .returned st1 →
        st1.listen_fd = st.listen_fd ∧ st1.epoll_fd = st.epoll_fd := by
  cases h : r.wait_r with
  | none =>
    rw [poll_iteration_none st r k h]
    refine ⟨?_, by simp, by simp⟩
    intro s hs
    simp only [Outcome.exited.injEq] at hs
    refine ⟨hs.symm, [], .epoll_wait st.epoll_fd MAX_EVENTS (-1) (-1),
      [.close st.epoll_fd (status_result (decide (st.epoll_fd ∈ k.open_fds))),
        .close st.listen_fd
          (status_result (decide (st.listen_fd ∈ k.open_fds.erase st.epoll_fd)))],
      by simp, ?_, ?_⟩
    · simp [Call.is_close]
    · simp [Call.main_failure]
  | some b =>
    rw [poll_iteration_some st r k b h]
    obtain ⟨h1, h2, h3⟩ := for_events_exits_well (b.take MAX_EVENTS) r.conns
      (b.take MAX_EVENTS).length 0 st k
    refine ⟨?_, h2, h3⟩
    intro s hs
    obtain ⟨e1, e2⟩ := h1 s hs
    exact ⟨e1, e2.append_left [_]⟩

theorem event_loop_exits_well (rounds : List Round) :
    ∀ (st : LoopState) (k : Kernel),
    (event_loop rounds st k).exits_well ∧ ∀ u, (event_loop rounds st k).out ≠ .returned u := by
  induction rounds with
  | nil =>
    intro st k
    simp [event_loop, Res.exits_well]
  | cons r rs ih =>
    intro st k
    obtain ⟨h1, h2, -⟩ := poll_iteration_exits_well st r k
    have heq : event_loop (r :: rs) st k
        = Proc.bind (poll_iteration st r) (fun st1 => event_loop rs st1) k := rfl
    rw [heq]
    refine ⟨bind_exits_well h1 (fun a _ => (ih a _).1), ?_⟩
    intro u
    cases hout : (poll_iteration st r k).out with
    | returned a => rw [bind_returned hout]; exact (ih a _).2 u
    | exited s => rw [bind_exited hout]; simp
    | blocked => exact absurd hout h2

/-! ## Frame lemmas for the start-up -/

theorem bind_loop_nil (fd0 : Int) (k : Kernel) :
    bind_loop [] fd0 k = ⟨[], k, .returned (fd0, false)⟩ := rfl

theorem bind_loop_no_socket (c : Cand) (rest : List Cand) (fd0 : Int) (k : Kernel)
    (h : c.socket_r = none) :
    bind_loop (c :: rest) fd0 k =
      ⟨.socket c.ai (-1) :: (bind_loop rest (-1) k).calls, (bind_loop rest (-1) k).k,
        (bind_loop rest (-1) k).out⟩ := by
  simp [bind_loop, Proc.bind, Sys.socket, h, fd_result, Kernel.grant]

theorem bind_loop_setsockopt_fails (c : Cand) (rest : List Cand) (fd0 : Int) (k : Kernel)
    (m : Nat) (h : c.socket_r = some m) (hs : c.setsockopt_ok = false) :
    bind_loop (c :: rest) fd0 k =
      ⟨[.socket c.ai m, .setsockopt m (-1), .exit 1], k.alloc m, .exited 1⟩ := by
  simp [bind_loop, Proc.bind, Sys.socket, Sys.setsockopt, Sys.exit, h, hs, fd_result,
    Kernel.grant, status_result]

theorem bind_loop_bind_fails (c : Cand) (rest : List Cand) (fd0 : Int) (k : Kernel)
    (m : Nat) (h : c.socket_r = some m) (hs : c.setsockopt_ok = true)
    (hb : c.bind_ok = false) :
    bind_loop (c :: rest) fd0 k =
      ⟨[.socket c.ai m, .setsockopt m 0, .bind m c.ai (-1), .close m 0]
          ++ (bind_loop rest m
              ⟨k.open_fds, Function.update k.fl (m : Int) O_RDWR, k.interest⟩).calls,
        (bind_loop rest m ⟨k.open_fds, Function.update k.fl (m : Int) O_RDWR, k.interest⟩).k,
        (bind_loop rest m
          ⟨k.open_fds, Function.update k.fl (m : Int) O_RDWR, k.interest⟩).out⟩ := by
  simp [bind_loop, Proc.bind, Sys.socket, Sys.setsockopt, Sys.bind, Sys.close, h, hs, hb,
    fd_result, Kernel.grant, Kernel.alloc, status_result]

theorem bind_loop_bound (c : Cand) (rest : List Cand) (fd0 : Int) (k : Kernel)
    (m : Nat) (h : c.socket_r = some m) (hs : c.setsockopt_ok = true)
    (hb : c.bind_ok = true) :
    bind_loop (c :: rest) fd0 k =
      ⟨[.socket c.ai m, .setsockopt m 0, .bind m c.ai 0], k.alloc m,
        .returned ((m : Int), true)⟩ := by
  simp [bind_loop, Proc.bind, Proc.pure, Sys.socket, Sys.setsockopt, Sys.bind, h, hs, hb,
    fd_result, Kernel.grant, status_result]

theorem bind_loop_frame (cands : List Cand) :
    ∀ (fd0 : Int) (k : Kernel),
    (bind_loop cands fd0 k).k.interest = k.interest
    ∧ (bind_loop cands fd0 k).out ≠ .blocked
    ∧ (∀ fd, (bind_loop cands fd0 k).out = .returned (fd, true) →
        (∃ n : Nat, fd = n) ∧ (bind_loop cands fd0 k).k.open_fds = fd :: k.open_fds)
    ∧ (∀ fd, (bind_loop cands fd0 k).out = .returned (fd, false) →
        (bind_loop cands fd0 k).k.open_fds = k.open_fds)
    ∧ (∀ s, (bind_loop cands fd0 k).out = .exited s →
        s = 1 ∧ ∃ fd, Call.setsockopt fd (-1) ∈ (bind_loop cands fd0 k).calls)
    ∧ (∀ c ∈ (bind_loop cands fd0 k).calls, c.bootstrap) := by
  induction cands with
  | nil =>
    intro fd0 k
    simp [bind_loop_nil]
  | cons c rest ih =>
    intro fd0 k
    cases h : c.socket_r with
    | none =>
      obtain ⟨i1, i2, i3, i4, i5, i6⟩ := ih (-1) k
      rw [bind_loop_no_socket c rest fd0 k h]
      refine ⟨i1, i2, i3, i4, ?_, ?_⟩
      · intro s hs
        obtain ⟨e1, fd, e2⟩ := i5 s hs
        exact ⟨e1, fd, List.mem_cons_of_mem _ e2⟩
      · intro x hx
        rcases List.mem_cons.1 hx with rfl | hx
        · simp [Call.bootstrap, Call.is_epoll_ctl, Call.is_accept, Call.main_failure]
        · exact i6 x hx
    | some m =>
      cases hs : c.setsockopt_ok with
      | false =>
        rw [bind_loop_setsockopt_fails c rest fd0 k m h hs]
        simp [Kernel.alloc, Call.bootstrap, Call.is_epoll_ctl, Call.is_accept,
          Call.main_failure]
      | true =>
        cases hb : c.bind_ok with
        | false =>
          obtain ⟨i1, i2, i3, i4, i5, i6⟩ := ih (m : Int)
            ⟨k.open_fds, Function.update k.fl (m : Int) O_RDWR, k.interest⟩
          rw [bind_loop_bind_fails c rest fd0 k m h hs hb]
          refine ⟨i1, i2, i3, i4, ?_, ?_⟩
          · intro s hs
            obtain ⟨e1, fd, e2⟩ := i5 s hs
            exact ⟨e1, fd, List.mem_append_right _ e2⟩
          · intro x hx
            rcases List.mem_append.1 hx with hx | hx
            · simp only [List.mem_cons, List.mem_singleton, List.not_mem_nil, or_false] at hx
              rcases hx with rfl | rfl | rfl | rfl <;>
                simp [Call.bootstrap, Call.is_epoll_ctl, Call.is_accept, Call.main_failure]
            · exact i6 x hx
        | true =>
          rw [bind_loop_bound c rest fd0 k m h hs hb]
          simp [Kernel.alloc, Call.bootstrap, Call.is_epoll_ctl, Call.is_accept,
            Call.main_failure]

theorem start_listening_frame (fd : Int) (w : World) (k : Kernel) :
    (start_listening fd w k).k.interest = k.interest
    ∧ (start_listening fd w k).out ≠ .blocked
    ∧ (∀ v, (start_listening fd w k).out = .returned v →
        v = fd ∧ (start_listening fd w k).k.open_fds = k.open_fds)
    ∧ (∀ s, (start_listening fd w k).out = .exited s →
        s = 1 ∧ (start_listening fd w k).k.open_fds = k.open_fds.erase fd)
    ∧ (∀ c ∈ (start_listening fd w k).calls, c.bootstrap) := by
  obtain ⟨⟨v, hv⟩, ho, hi, hc⟩ := setnonblocking_frame fd w.listen_fcntl k
  have hc' : ∀ c ∈ (setnonblocking fd w.listen_fcntl k).calls, c.bootstrap :=
    fun c h => ⟨(hc c h).2.2.1, (hc c h).2.1, (hc c h).2.2.2⟩
  have hb : ∀ (l : List Call), (∀ c ∈ l, c.bootstrap) →
      ∀ c ∈ (setnonblocking fd w.listen_fcntl k).calls ++ l, c.bootstrap := by
    intro l hl c h
    rcases List.mem_append.1 h with h | h
    · exact hc' c h
    · exact hl c h
  by_cases h1 : v = -1
  · have heq : start_listening fd w k
        = ⟨(setnonblocking fd w.listen_fcntl k).calls
            ++ [.close fd (status_result (decide (fd ∈ k.open_fds))), .exit 1],
          ⟨k.open_fds.erase fd, (setnonblocking fd w.listen_fcntl k).k.fl, k.interest⟩,
          .exited 1⟩ := by
      simp [start_listening, Proc.bind, Sys.close, Sys.exit, hv, h1, ho, hi]
    rw [heq]
    refine ⟨rfl, by simp, by simp, by simp, hb _ ?_⟩
    simp [Call.bootstrap, Call.is_epoll_ctl, Call.is_accept, Call.main_failure]
  · cases h2 : w.listen_ok with
    | false =>
      have heq : start_listening fd w k
          = ⟨(setnonblocking fd w.listen_fcntl k).calls
              ++ [.listen fd BACKLOG (-1),
                .close fd (status_result (decide (fd ∈ k.open_fds))), .exit 1],
            ⟨k.open_fds.erase fd, (setnonblocking fd w.listen_fcntl k).k.fl, k.interest⟩,
            .exited 1⟩ := by
        simp [start_listening, Proc.bind, Sys.close, Sys.exit, Sys.listen, hv, h1, h2, ho, hi,
          status_result]
      rw [heq]
      refine ⟨rfl, by simp, by simp, by simp, hb _ ?_⟩
      simp [Call.bootstrap, Call.is_epoll_ctl, Call.is_accept, Call.main_failure]
    | true =>
      have heq : start_listening fd w k
          = ⟨(setnonblocking fd w.listen_fcntl k).calls ++ [.listen fd BACKLOG 0],
            (setnonblocking fd w.listen_fcntl k).k, .returned fd⟩ := by
        simp [start_listening, Proc.bind, Proc.pure, Sys.listen, hv, h1, h2, status_result]
      rw [heq]
      refine ⟨hi, by simp, by simp [ho], by simp, hb _ ?_⟩
      simp [Call.bootstrap, Call.is_epoll_ctl, Call.is_accept, Call.main_failure]

theorem get_listen_socket_frame (w : World) (k : Kernel) :
    (get_listen_socket w k).k.interest = k.interest
    ∧ (get_listen_socket w k).out ≠ .blocked
    ∧ (∀ v, (get_listen_socket w k).out = .returned v →
        ((get_listen_socket w k).k.open_fds = k.open_fds ∧ w.gai_r ≠ 0 ∧ v = w.gai_r)
        ∨ ((∃ n : Nat, v = n) ∧ (get_listen_socket w k).k.open_fds = v :: k.open_fds))
    ∧ (∀ s, (get_listen_socket w k).out = .exited s →
        s = 1 ∧ ((∃ fd, Call.setsockopt fd (-1) ∈ (get_listen_socket w k).calls)
          ∨ List.Subperm (get_listen_socket w k).k.open_fds k.open_fds))
    ∧ (∀ c ∈ (get_listen_socket w k).calls, c.bootstrap) := by
  by_cases hg : w.gai_r = 0
  · obtain ⟨i1, i2, i3, i4, i5, i6⟩ := bind_loop_frame w.bind_addr_list 0 k
    have hga : Call.bootstrap (.getaddrinfo 0) := by
      simp [Call.bootstrap, Call.is_epoll_ctl, Call.is_accept, Call.main_failure]
    cases hout : (bind_loop w.bind_addr_list 0 k).out with
    | blocked => exact absurd hout i2
    | exited s =>
      have heq : get_listen_socket w k
          = ⟨.getaddrinfo 0 :: (bind_loop w.bind_addr_list 0 k).calls,
            (bind_loop w.bind_addr_list 0 k).k, .exited s⟩ := by
        simp [get_listen_socket, Proc.bind, Sys.getaddrinfo, hg, hout]
      obtain ⟨e1, fd, e2⟩ := i5 s hout
      rw [heq]
      refine ⟨i1, by simp, by simp, ?_, ?_⟩
      · intro s' hs'
        simp only [Outcome.exited.injEq] at hs'
        exact ⟨hs' ▸ e1, Or.inl ⟨fd, List.mem_cons_of_mem _ e2⟩⟩
      · intro c hc
        rcases List.mem_cons.1 hc with rfl | hc
        · exact hga
        · exact i6 c hc
    | returned a =>
      obtain ⟨fd, found⟩ := a
      cases found with
      | false =>
        have ho := i4 fd hout
        by_cases hfd : fd = -1
        · have heq : get_listen_socket w k
              = ⟨.getaddrinfo 0 :: ((bind_loop w.bind_addr_list 0 k).calls ++ [.exit 1]),
                (bind_loop w.bind_addr_list 0 k).k, .exited 1⟩ := by
            simp [get_listen_socket, Proc.bind, Sys.getaddrinfo, Sys.exit, hg, hout, hfd]
          rw [heq]
          refine ⟨i1, by simp, by simp, ?_, ?_⟩
          · intro s' hs'
            simp only [Outcome.exited.injEq] at hs'
            exact ⟨hs'.symm, Or.inr (by rw [ho])⟩
          · intro c hc
            rcases List.mem_cons.1 hc with rfl | hc
            · exact hga
            · rcases List.mem_append.1 hc with hc | hc
              · exact i6 c hc
              · simp only [List.mem_singleton] at hc
                subst hc
                simp [Call.bootstrap, Call.is_epoll_ctl, Call.is_accept, Call.main_failure]
        · have heq : get_listen_socket w k
              = ⟨.getaddrinfo 0 :: ((bind_loop w.bind_addr_list 0 k).calls
                  ++ [.close fd (status_result (decide (fd ∈ k.open_fds))), .exit 1]),
                ⟨k.open_fds.erase fd, (bind_loop w.bind_addr_list 0 k).k.fl, k.interest⟩,
                .exited 1⟩ := by
            simp [get_listen_socket, Proc.bind, Sys.getaddrinfo, Sys.exit, Sys.close, hg, hout,
              hfd, ho, i1]
          rw [heq]
          refine ⟨rfl, by simp, by simp, ?_, ?_⟩
          · intro s' hs'
            simp only [Outcome.exited.injEq] at hs'
            exact ⟨hs'.symm, Or.inr (List.erase_subperm _ _)⟩
          · intro c hc
            rcases List.mem_cons.1 hc with rfl | hc
            · exact hga
            · rcases List.mem_append.1 hc with hc | hc
              · exact i6 c hc
              · simp only [List.mem_cons, List.mem_singleton, List.not_mem_nil, or_false] at hc
                rcases hc with rfl | rfl <;>
                  simp [Call.bootstrap, Call.is_epoll_ctl, Call.is_accept, Call.main_failure]
      | true =>
        obtain ⟨hn, ho⟩ := i3 fd hout
        obtain ⟨j1, j2, j3, j4, j5⟩ :=
          start_listening_frame fd w (bind_loop w.bind_addr_list 0 k).k
        have heq : get_listen_socket w k
            = ⟨.getaddrinfo 0 :: ((bind_loop w.bind_addr_list 0 k).calls
                ++ (start_listening fd w (bind_loop w.bind_addr_list 0 k).k).calls),
              (start_listening fd w (bind_loop w.bind_addr_list 0 k).k).k,
              (start_listening fd w (bind_loop w.bind_addr_list 0 k).k).out⟩ := by
          simp [get_listen_socket, Proc.bind, Sys.getaddrinfo, hg, hout]
        rw [heq]
        refine ⟨j1.trans i1, j2, ?_, ?_, ?_⟩
        · intro v hv
          obtain ⟨e1, e2⟩ := j3 v hv
          exact Or.inr ⟨e1 ▸ hn, by simp only [e2, ho, e1]⟩
        · intro s hs
          obtain ⟨e1, e2⟩ := j4 s hs
          refine ⟨e1, Or.inr ?_⟩
          simp only [e2, ho, List.erase_cons_head]
          exact List.Subperm.refl _
        · intro c hc
          rcases List.mem_cons.1 hc with rfl | hc
          · exact hga
          · rcases List.mem_append.1 hc with hc | hc
            · exact i6 c hc
            · exact j5 c hc
  · have heq : get_listen_socket w k = ⟨[.getaddrinfo w.gai_r], k, .returned w.gai_r⟩ := by
      simp [get_listen_socket, Proc.bind, Proc.pure, Sys.getaddrinfo, hg]
    rw [heq]
    refine ⟨rfl, by simp, ?_, by simp, ?_⟩
    · intro v hv
      simp only [Outcome.returned.injEq] at hv
      exact Or.inl ⟨rfl, hg, hv.symm⟩
    · simp [Call.bootstrap, Call.is_epoll_ctl, Call.is_accept, Call.main_failure]

theorem StartupExitShape.prepend {cs : List Call} (h : StartupExitShape cs)
    (cs0 : List Call) : StartupExitShape (cs0 ++ cs) := by
  obtain ⟨pre, c, closes, rfl, h1, h2⟩ := h
  exact ⟨cs0 ++ pre, c, closes, by simp, h1, h2⟩

theorem bind_loop_shape (cands : List Cand) :
    ∀ (fd0 : Int) (k : Kernel),
    (∀ s, (bind_loop cands fd0 k).out = .exited s →
      StartupExitShape (bind_loop cands fd0 k).calls)
    ∧ (∀ fd, (bind_loop cands fd0 k).out = .returned (fd, false) → cands ≠ [] →
      ∃ pre c closes, (bind_loop cands fd0 k).calls = pre ++ c :: closes
        ∧ (∀ x ∈ closes, x.is_close = true) ∧ c.startup_failure = true) := by
  induction cands with
  | nil =>
    intro fd0 k
    simp [bind_loop_nil]
  | cons c rest ih =>
    intro fd0 k
    cases h : c.socket_r with
    | none =>
      obtain ⟨i1, i2⟩ := ih (-1) k
      rw [bind_loop_no_socket c rest fd0 k h]
      refine ⟨fun s hs => (i1 s hs).prepend [_], ?_⟩
      intro fd hfd _
      cases rest with
      | nil =>
        exact ⟨[], .socket c.ai (-1), [], by simp [bind_loop_nil], by simp,
          by simp [Call.startup_failure]⟩
      | cons c2 rest2 =>
        obtain ⟨pre, x, closes, e1, e2, e3⟩ := i2 fd hfd (by simp)
        exact ⟨.socket c.ai (-1) :: pre, x, closes, by rw [e1]; simp, e2, e3⟩
    | some m =>
      cases hs : c.setsockopt_ok with
      | false =>
        rw [bind_loop_setsockopt_fails c rest fd0 k m h hs]
        refine ⟨fun s _ => ⟨[.socket c.ai m], .setsockopt m (-1), [], by simp, by simp,
          by simp [Call.startup_failure]⟩, by simp⟩
      | true =>
        cases hb : c.bind_ok with
        | false =>
          obtain ⟨i1, i2⟩ := ih (m : Int)
            ⟨k.open_fds, Function.update k.fl (m : Int) O_RDWR, k.interest⟩
          rw [bind_loop_bind_fails c rest fd0 k m h hs hb]
          refine ⟨fun s hs => (i1 s hs).prepend _, ?_⟩
          intro fd hfd _
          cases rest with
          | nil =>
            exact ⟨[.socket c.ai m, .setsockopt m 0], .bind m c.ai (-1), [.close m 0],
              by simp [bind_loop_nil], by simp [Call.is_close],
              by simp [Call.startup_failure]⟩
          | cons c2 rest2 =>
            obtain ⟨pre, x, closes, e1, e2, e3⟩ := i2 fd hfd (by simp)
            exact ⟨[.socket c.ai m, .setsockopt m 0, .bind m c.ai (-1), .close m 0] ++ pre,
              x, closes, by rw [e1]; simp, e2, e3⟩
        | true =>
          rw [bind_loop_bound c rest fd0 k m h hs hb]
          simp

theorem start_listening_shape (fd : Int) (w : World) (k : Kernel) (s : Int)
    (h : (start_listening fd w k).out = .exited s) :
    StartupExitShape (start_listening fd w k).calls := by
  by_cases h1 : Sys.getfl_result k fd w.listen_fcntl.getfl_ok = -1
  · refine ⟨[], .fcntl_getfl fd (-1),
      [.close fd (status_result (decide (fd ∈ k.open_fds)))], ?_, by simp [Call.is_close],
      by simp [Call.startup_failure]⟩
    simp [start_listening, setnonblocking, Proc.bind, Proc.pure, Sys.fcntl_getfl,
      Sys.fcntl_setfl, Sys.listen, Sys.close, Sys.exit, h1]
  · cases h2 : (decide (fd ∈ k.open_fds) && w.listen_fcntl.setfl_ok) with
    | false =>
      refine ⟨[.fcntl_getfl fd (Sys.getfl_result k fd w.listen_fcntl.getfl_ok)],
        .fcntl_setfl fd (Int.lor (Sys.getfl_result k fd w.listen_fcntl.getfl_ok) O_NONBLOCK)
          (-1),
        [.close fd (status_result (decide (fd ∈ k.open_fds)))], ?_, by simp [Call.is_close],
        by simp [Call.startup_failure]⟩
      simp [start_listening, setnonblocking, Proc.bind, Proc.pure, Sys.fcntl_getfl,
        Sys.fcntl_setfl, Sys.listen, Sys.close, Sys.exit, h1, h2, status_result]
    | true =>
      cases h3 : w.listen_ok with
      | false =>
        refine ⟨[.fcntl_getfl fd (Sys.getfl_result k fd w.listen_fcntl.getfl_ok),
            .fcntl_setfl fd
              (Int.lor (Sys.getfl_result k fd w.listen_fcntl.getfl_ok) O_NONBLOCK) 0],
          .listen fd BACKLOG (-1),
          [.close fd (status_result (decide (fd ∈ k.open_fds)))], ?_,
          by simp [Call.is_close], by simp [Call.startup_failure]⟩
        simp [start_listening, setnonblocking, Proc.bind, Proc.pure, Sys.fcntl_getfl,
          Sys.fcntl_setfl, Sys.listen, Sys.close, Sys.exit, h1, h2, h3, status_result]
      | true =>
        simp [start_listening, setnonblocking, Proc.bind, Proc.pure, Sys.fcntl_getfl,
          Sys.fcntl_setfl, Sys.listen, Sys.close, Sys.exit, h1, h2, h3, status_result] at h

theorem get_listen_socket_shape (w : World) (k : Kernel) (s : Int)
    (h : (get_listen_socket w k).out = .exited s) (hne : w.bind_addr_list ≠ []) :
    StartupExitShape (get_listen_socket w k).calls := by
  by_cases hg : w.gai_r = 0
  · obtain ⟨i1, i2, i3, i4, i5, i6⟩ := bind_loop_frame w.bind_addr_list 0 k
    obtain ⟨b1, b2⟩ := bind_loop_shape w.bind_addr_list 0 k
    cases hout : (bind_loop w.bind_addr_list 0 k).out with
    | blocked => exact absurd hout i2
    | exited s0 =>
      have heq : (get_listen_socket w k).calls
          = [.getaddrinfo 0] ++ (bind_loop w.bind_addr_list 0 k).calls := by
        simp [get_listen_socket, Proc.bind, Sys.getaddrinfo, hg, hout]
      rw [heq]
      exact (b1 s0 hout).prepend _
    | returned a =>
      obtain ⟨fd, found⟩ := a
      cases found with
      | false =>
        obtain ⟨pre, c, closes, e1, e2, e3⟩ := b2 fd hout hne
        by_cases hfd : fd = -1
        · have heq : (get_listen_socket w k).calls
              = .getaddrinfo 0 :: ((bind_loop w.bind_addr_list 0 k).calls ++ [.exit 1]) := by
            simp [get_listen_socket, Proc.bind, Sys.getaddrinfo, Sys.exit, hg, hout, hfd]
          rw [heq, e1]
          exact ⟨.getaddrinfo 0 :: pre, c, closes, by simp, e2, e3⟩
        · have heq : (get_listen_socket w k).calls
              = .getaddrinfo 0 :: ((bind_loop w.bind_addr_list 0 k).calls
                  ++ [.close fd (status_result
                        (decide (fd ∈ (bind_loop w.bind_addr_list 0 k).k.open_fds))),
                      .exit 1]) := by
            simp [get_listen_socket, Proc.bind, Sys.getaddrinfo, Sys.exit, Sys.close, hg, hout,
              hfd]
          rw [heq, e1]
          refine ⟨.getaddrinfo 0 :: pre, c, closes ++ [.close fd (status_result
            (decide (fd ∈ (bind_loop w.bind_addr_list 0 k).k.open_fds)))], by simp, ?_, e3⟩
          intro x hx
          rcases List.mem_append.1 hx with hx | hx
          · exact e2 x hx
          · simp only [List.mem_singleton] at hx
            subst hx
            rfl
      | true =>
        have heq : get_listen_socket w k
            = ⟨.getaddrinfo 0 :: ((bind_loop w.bind_addr_list 0 k).calls
                ++ (start_listening fd w (bind_loop w.bind_addr_list 0 k).k).calls),
              (start_listening fd w (bind_loop w.bind_addr_list 0 k).k).k,
              (start_listening fd w (bind_loop w.bind_addr_list 0 k).k).out⟩ := by
          simp [get_listen_socket, Proc.bind, Sys.getaddrinfo, hg, hout]
        rw [heq] at h ⊢
        have := start_listening_shape fd w _ s h
        exact (this.prepend _).prepend [_]
  · have heq : get_listen_socket w k = ⟨[.getaddrinfo w.gai_r], k, .returned w.gai_r⟩ := by
      simp [get_listen_socket, Proc.bind, Proc.pure, Sys.getaddrinfo, hg]
    rw [heq] at h
    simp at h

theorem main_setup_gls_exited (w : World) (k : Kernel) (s : Int)
    (h : (get_listen_socket w k).out = .exited s) :
    main_setup w k = ⟨(get_listen_socket w k).calls, (get_listen_socket w k).k, .exited s⟩ := by
  simp [main_setup, Proc.bind, h]

theorem main_setup_gls_minus_one (w : World) (k : Kernel)
    (h : (get_listen_socket w k).out = .returned (-1)) :
    main_setup w k
      = ⟨(get_listen_socket w k).calls ++ [.exit 1], (get_listen_socket w k).k, .exited 1⟩ := by
  simp [main_setup, Proc.bind, Sys.exit, h]

theorem main_setup_create_fails (w : World) (k : Kernel) (v : Int)
    (h : (get_listen_socket w k).out = .returned v) (hv : v ≠ -1)
    (he : w.epoll_create1_r = none) :
    main_setup w k
      = ⟨(get_listen_socket w k).calls
          ++ [.epoll_create1 0 (-1),
            .close v (status_result (decide (v ∈ (get_listen_socket w k).k.open_fds))),
            .exit 1],
        ⟨(get_listen_socket w k).k.open_fds.erase v, (get_listen_socket w k).k.fl,
          (get_listen_socket w k).k.interest⟩,
        .exited 1⟩ := by
  simp [main_setup, Proc.bind, Sys.exit, Sys.epoll_create1, Sys.close, h, hv, he, fd_result,
    Kernel.grant]

theorem main_setup_ctl_fails (w : World) (k : Kernel) (v : Int) (e : Nat)
    (h : (get_listen_socket w k).out = .returned v) (hv : v ≠ -1)
    (he : w.epoll_create1_r = some e)
    (hc : Sys.ctl_ok ((get_listen_socket w k).k.alloc e) e v w.epoll_ctl_ok = false) :
    main_setup w k
      = ⟨(get_listen_socket w k).calls
          ++ [.epoll_create1 0 e,
            .epoll_ctl e EPOLL_CTL_ADD v ⟨EPOLLIN, v⟩ (-1),
            .close e 0,
            .close v (status_result (decide (v ∈ (get_listen_socket w k).k.open_fds))),
            .exit 1],
        ⟨(get_listen_socket w k).k.open_fds.erase v,
          ((get_listen_socket w k).k.alloc e).fl, (get_listen_socket w k).k.interest⟩,
        .exited 1⟩ := by
  simp [main_setup, Proc.bind, Sys.exit, Sys.epoll_create1, Sys.close, Sys.epoll_ctl, h, hv, he,
    hc, fd_result, Kernel.grant, status_result]
  simp [Kernel.alloc]

theorem main_setup_ok (w : World) (k : Kernel) (v : Int) (e : Nat)
    (h : (get_listen_socket w k).out = .returned v) (hv : v ≠ -1)
    (he : w.epoll_create1_r = some e)
    (hc : Sys.ctl_ok ((get_listen_socket w k).k.alloc e) e v w.epoll_ctl_ok = true) :
    main_setup w k
      = ⟨(get_listen_socket w k).calls
          ++ [.epoll_create1 0 e, .epoll_ctl e EPOLL_CTL_ADD v ⟨EPOLLIN, v⟩ 0],
        ⟨(e : Int) :: (get_listen_socket w k).k.open_fds,
          ((get_listen_socket w k).k.alloc e).fl,
          (get_listen_socket w k).k.interest ++ [⟨e, v, ⟨EPOLLIN, v⟩⟩]⟩,
        .returned ⟨v, e, ⟨EPOLLIN, v⟩⟩⟩ := by
  simp [main_setup, Proc.bind, Proc.pure, Sys.epoll_create1, Sys.epoll_ctl, h, hv, he,
    hc, fd_result, Kernel.grant, status_result, Sys.ctl_apply]
  simp [Kernel.alloc]

/-! ## Termination of `main` -/

theorem main_eq (w : World) (k : Kernel) :
    main w k = Proc.bind (main_setup w)
      (fun st => Proc.bind (event_loop w.rounds st) (fun _ => Proc.pure 0)) k := rfl

theorem event_loop_then (rounds : List Round) (st : LoopState) (k : Kernel) :
    Proc.bind (event_loop rounds st) (fun _ => (Proc.pure 0 : Proc Int)) k
      = ⟨(event_loop rounds st k).calls, (event_loop rounds st k).k,
          match (event_loop rounds st k).out with
          | .returned _ => .returned 0
          | .exited s => .exited s
          | .blocked => .blocked⟩ := by
  cases h : (event_loop rounds st k).out with
  | returned u => exact absurd h ((event_loop_exits_well rounds st k).2 u)
  | exited s => simp [Proc.bind, h]
  | blocked => simp [Proc.bind, h]

theorem main_setup_exits (w : World) (k : Kernel) :
    (main_setup w k).out ≠ .blocked
    ∧ ∀ s, (main_setup w k).out = .exited s → s = 1 ∧
      (((get_listen_socket w k).out = .exited 1
          ∧ (main_setup w k).calls = (get_listen_socket w k).calls
          ∧ (w.bind_addr_list ≠ [] → StartupExitShape (main_setup w k).calls))
        ∨ ((get_listen_socket w k).out = .returned (-1)
          ∧ (main_setup w k).calls = (get_listen_socket w k).calls ++ [.exit 1])
        ∨ ExitShape (main_setup w k).calls) := by
  obtain ⟨-, g2, -, g4, -⟩ := get_listen_socket_frame w k
  cases h : (get_listen_socket w k).out with
  | blocked => exact absurd h g2
  | exited s0 =>
    rw [main_setup_gls_exited w k s0 h]
    refine ⟨by simp, ?_⟩
    intro s hs
    simp only [Outcome.exited.injEq] at hs
    subst hs
    obtain ⟨e1, -⟩ := g4 s0 h
    subst e1
    exact ⟨rfl, Or.inl ⟨rfl, rfl, fun hne => get_listen_socket_shape w k 1 h hne⟩⟩
  | returned v =>
    by_cases hv : v = -1
    · subst hv
      rw [main_setup_gls_minus_one w k h]
      refine ⟨by simp, ?_⟩
      intro s hs
      simp only [Outcome.exited.injEq] at hs
      exact ⟨hs.symm, Or.inr (Or.inl ⟨rfl, rfl⟩)⟩
    · cases he : w.epoll_create1_r with
      | none =>
        rw [main_setup_create_fails w k v h hv he]
        refine ⟨by simp, ?_⟩
        intro s hs
        simp only [Outcome.exited.injEq] at hs
        refine ⟨hs.symm, Or.inr (Or.inr ⟨(get_listen_socket w k).calls,
          .epoll_create1 0 (-1),
          [.close v (status_result (decide (v ∈ (get_listen_socket w k).k.open_fds)))],
          by simp, ?_, ?_⟩)⟩
        · simp [Call.is_close]
        · simp [Call.main_failure]
      | some e =>
        cases hc : Sys.ctl_ok ((get_listen_socket w k).k.alloc e) e v w.epoll_ctl_ok with
        | false =>
          rw [main_setup_ctl_fails w k v e h hv he hc]
          refine ⟨by simp, ?_⟩
          intro s hs
          simp only [Outcome.exited.injEq] at hs
          refine ⟨hs.symm, Or.inr (Or.inr ⟨(get_listen_socket w k).calls
              ++ [.epoll_create1 0 e],
            .epoll_ctl e EPOLL_CTL_ADD v ⟨EPOLLIN, v⟩ (-1),
            [.close e 0,
              .close v (status_result (decide (v ∈ (get_listen_socket w k).k.open_fds)))],
            by simp, ?_, ?_⟩)⟩
          · simp [Call.is_close]
          · simp [Call.main_failure]
        | true =>
          rw [main_setup_ok w k v e h hv he hc]
          simp

theorem event_loop_cons (r : Round) (rs : List Round) (st : LoopState) (k : Kernel) :
    event_loop (r :: rs) st k
      = Proc.bind (poll_iteration st r) (fun st1 => event_loop rs st1) k := rfl

theorem poll_iteration_head (st : LoopState) (r : Round) (k : Kernel) :
    ∃ rest, (poll_iteration st r k).calls
      = .epoll_wait st.epoll_fd MAX_EVENTS (-1) (Sys.wait_result MAX_EVENTS r.wait_r).1
        :: rest := by
  cases h : r.wait_r with
  | none => rw [poll_iteration_none st r k h]; exact ⟨_, rfl⟩
  | some b => rw [poll_iteration_some st r k b h]; exact ⟨_, rfl⟩

theorem event_loop_head (r : Round) (rs : List Round) (st : LoopState) (k : Kernel) :
    ∃ rest, (event_loop (r :: rs) st k).calls
      = .epoll_wait st.epoll_fd MAX_EVENTS (-1) (Sys.wait_result MAX_EVENTS r.wait_r).1
        :: rest := by
  obtain ⟨rest, hrest⟩ := poll_iteration_head st r k
  rw [event_loop_cons]
  cases h : (poll_iteration st r k).out with
  | returned a => rw [bind_returned h, hrest]; exact ⟨_, rfl⟩
  | exited s => rw [bind_exited h, hrest]; exact ⟨_, rfl⟩
  | blocked => rw [bind_blocked h, hrest]; exact ⟨_, rfl⟩

/-- C3: `main` never returns; when the process exits the status is 1 and the exit is
either the one `get_listen_socket` makes (which, unless the candidate list is empty,
follows a failed `socket` / `setsockopt` / `bind` / `fcntl` / `listen` with nothing but
`close` calls in between), or follows `get_listen_socket` returning `-1`, or follows a
failed `epoll_create1` / `epoll_ctl` / `epoll_wait` / `accept` with nothing but `close`
calls in between. An iteration of the loop in which none of `epoll_wait`, `accept`,
`epoll_ctl` fails hands over to the next `epoll_wait`; an iteration in which `epoll_wait`
returns `-1` ends in `exit(1)`. -/
theorem main_exits_only_after_failure (w : World) (k : Kernel) :
    (∀ v, (main w k).out ≠ .returned v)
    ∧ (∀ s, (main w k).out = .exited s → s = 1 ∧
        (((get_listen_socket w k).out = .exited 1
            ∧ (main w k).calls = (get_listen_socket w k).calls
            ∧ (w.bind_addr_list ≠ [] →
              ∃ pre c closes, (main w k).calls = pre ++ c :: closes ++ [.exit 1]
                ∧ (∀ x ∈ closes, x.is_close = true) ∧ c.startup_failure = true))
          ∨ ((get_listen_socket w k).out = .returned (-1)
            ∧ (main w k).calls = (get_listen_socket w k).calls ++ [.exit 1])
          ∨ ∃ pre c closes, (main w k).calls = pre ++ c :: closes ++ [.exit 1]
              ∧ (∀ x ∈ closes, x.is_close = true) ∧ c.main_failure = true))
    ∧ (∀ (st : LoopState) (r : Round) (k1 : Kernel),
        (∀ c ∈ (poll_iteration st r k1).calls, c.main_failure = false) →
        ∃ st1, (poll_iteration st r k1).out = .returned st1
          ∧ st1.listen_fd = st.listen_fd ∧ st1.epoll_fd = st.epoll_fd
          ∧ ∀ (r2 : Round) (rs : List Round), ∃ rest,
              (event_loop (r :: r2 :: rs) st k1).calls
                = (poll_iteration st r k1).calls
                  ++ .epoll_wait st.epoll_fd MAX_EVENTS (-1)
                      (Sys.wait_result MAX_EVENTS r2.wait_r).1 :: rest)
    ∧ (∀ (st : LoopState) (r : Round) (rs : List Round) (k1 : Kernel),
        r.wait_r = none →
        (event_loop (r :: rs) st k1).out = .exited 1
        ∧ Call.epoll_wait st.epoll_fd MAX_EVENTS (-1) (-1) ∈ (event_loop (r :: rs) st k1).calls)
    := by
  refine ⟨?_, ?_, ?_, ?_⟩
  · intro v
    rw [main_eq]
    cases h : (main_setup w k).out with
    | returned st =>
      rw [bind_returned h, event_loop_then]
      cases h2 : (event_loop w.rounds st (main_setup w k).k).out with
      | returned u => exact absurd h2 ((event_loop_exits_well _ _ _).2 u)
      | exited s => simp
      | blocked => simp
    | exited s => rw [bind_exited h]; simp
    | blocked => rw [bind_blocked h]; simp
  · intro s
    rw [main_eq]
    cases h : (main_setup w k).out with
    | returned st =>
      rw [bind_returned h, event_loop_then]
      intro hs
      have hs' : (event_loop w.rounds st (main_setup w k).k).out = .exited s := by
        cases h2 : (event_loop w.rounds st (main_setup w k).k).out with
        | returned u => exact absurd h2 ((event_loop_exits_well _ _ _).2 u)
        | exited s2 => simp only [h2, Outcome.exited.injEq] at hs; rw [hs]
        | blocked => simp [h2] at hs
      obtain ⟨e1, e2⟩ := (event_loop_exits_well w.rounds st (main_setup w k).k).1 s hs'
      exact ⟨e1, Or.inr (Or.inr (e2.append_left _))⟩
    | exited s0 =>
      rw [bind_exited h]
      intro hs
      simp only [Outcome.exited.injEq] at hs
      subst hs
      exact (main_setup_exits w k).2 s0 h
    | blocked => rw [bind_blocked h]; simp
  · intro st r k1 hno
    obtain ⟨p1, p2, p3⟩ := poll_iteration_exits_well st r k1
    cases h : (poll_iteration st r k1).out with
    | blocked => exact absurd h p2
    | exited s =>
      obtain ⟨c, hc, hf⟩ := ((p1 s h).2).has_failure
      rw [hno c hc] at hf
      exact absurd hf (by simp)
    | returned st1 =>
      obtain ⟨e1, e2⟩ := p3 st1 h
      refine ⟨st1, rfl, e1, e2, ?_⟩
      intro r2 rs
      obtain ⟨rest, hrest⟩ := event_loop_head r2 rs st1 (poll_iteration st r k1).k
      refine ⟨rest, ?_⟩
      rw [event_loop_cons, bind_returned h, hrest, e2]
  · intro st r rs k1 h
    have heq : event_loop (r :: rs) st k1
        = Proc.bind (poll_iteration st r) (fun st1 => event_loop rs st1) k1 := rfl
    have hp := poll_iteration_none st r k1 h
    have hout : (poll_iteration st r k1).out = .exited 1 := by rw [hp]
    rw [heq, bind_exited hout]
    exact ⟨rfl, by rw [hp]; simp⟩

/-! ## Induction over the loops -/

theorem for_events_succ_pos (events : List epoll_event) (conns : Nat → Conn) (todo n : Nat)
    (st : LoopState) (k : Kernel)
    (hc : (events.getD 0 ⟨0, 0⟩).data_fd = st.listen_fd) :
    for_events events conns (todo + 1) n st k
      = Proc.bind (accept_branch st (conns n))
          (fun st1 => for_events events conns todo (n + 1) st1) k := by
  rw [for_events]; simp only [bind_eq, pure_eq, if_pos hc]

theorem for_events_succ_neg (events : List epoll_event) (conns : Nat → Conn) (todo n : Nat)
    (st : LoopState) (k : Kernel)
    (hc : ¬ (events.getD 0 ⟨0, 0⟩).data_fd = st.listen_fd) :
    for_events events conns (todo + 1) n st k
      = for_events events conns todo (n + 1) st k := by
  rw [for_events]; simp only [bind_eq, pure_eq, if_neg hc]
  simp [Proc.bind, Proc.pure]

/-- Induction over the inner loop: a property of (start state, result) that holds for an
empty run and is carried through one pass of the accept branch holds for the loop. -/
theorem for_events_ind (events : List epoll_event) (conns : Nat → Conn)
    (P : LoopState → Kernel → Res LoopState → Prop)
    (hnil : ∀ st k, P st k ⟨[], k, .returned st⟩)
    (hret : ∀ st k c st1 (R : Res LoopState),
      (accept_branch st c k).out = .returned st1 → P st1 (accept_branch st c k).k R →
      P st k ⟨(accept_branch st c k).calls ++ R.calls, R.k, R.out⟩)
    (hexit : ∀ st k c s, (accept_branch st c k).out = .exited s →
      P st k ⟨(accept_branch st c k).calls, (accept_branch st c k).k, .exited s⟩) :
    ∀ (todo n : Nat) (st : LoopState) (k : Kernel),
      P st k (for_events events conns todo n st k) := by
  intro todo
  induction todo with
  | zero => intro n st k; exact hnil st k
  | succ todo ih =>
    intro n st k
    by_cases hc : (events.getD 0 ⟨0, 0⟩).data_fd = st.listen_fd
    · rw [for_events_succ_pos events conns todo n st k hc]
      cases hout : (accept_branch st (conns n) k).out with
      | returned a =>
        rw [bind_returned hout]
        exact hret st k (conns n) a _ hout (ih (n + 1) a _)
      | exited s =>
        rw [bind_exited hout]
        exact hexit st k (conns n) s hout
      | blocked => exact absurd hout (accept_branch_exits_well st (conns n) k).2.1
    · rw [for_events_succ_neg events conns todo n st k hc]
      exact ih (n + 1) st k

/-- Induction over the outer loop. -/
theorem event_loop_ind (P : LoopState → Kernel → Res Unit → Prop)
    (hnil : ∀ st k, P st k ⟨[], k, .blocked⟩)
    (hret : ∀ st k r st1 (R : Res Unit),
      (poll_iteration st r k).out = .returned st1 → P st1 (poll_iteration st r k).k R →
      P st k ⟨(poll_iteration st r k).calls ++ R.calls, R.k, R.out⟩)
    (hexit : ∀ st k r s, (poll_iteration st r k).out = .exited s →
      P st k ⟨(poll_iteration st r k).calls, (poll_iteration st r k).k, .exited s⟩) :
    ∀ (rounds : List Round) (st : LoopState) (k : Kernel),
      P st k (event_loop rounds st k) := by
  intro rounds
  induction rounds with
  | nil => intro st k; exact hnil st k
  | cons r rs ih =>
    intro st k
    rw [event_loop_cons]
    cases hout : (poll_iteration st r k).out with
    | returned a =>
      rw [bind_returned hout]
      exact hret st k r a _ hout (ih a _)
    | exited s =>
      rw [bind_exited hout]
      exact hexit st k r s hout
    | blocked => exact absurd hout (poll_iteration_exits_well st r k).2.1

/-! ## Registrations -/

theorem RegOK.append {E : Int} {cs1 cs2 : List Call} (h1 : RegOK E cs1) (h2 : RegOK E cs2) :
    RegOK E (cs1 ++ cs2) := by
  intro epfd op fd ev r hm
  rcases List.mem_append.1 hm with hm | hm
  · obtain ⟨a, b, c, l, d⟩ := h1 epfd op fd ev r hm
    exact ⟨a, b, c, l, List.mem_append_left _ d⟩
  · obtain ⟨a, b, c, l, d⟩ := h2 epfd op fd ev r hm
    exact ⟨a, b, c, l, List.mem_append_right _ d⟩

theorem RegOK.of_no_ctl {E : Int} {cs : List Call} (h : ∀ c ∈ cs, c.is_epoll_ctl = false) :
    RegOK E cs := by
  intro epfd op fd ev r hm
  have := h _ hm
  simp [Call.is_epoll_ctl] at this

theorem accept_branch_regOK (st : LoopState) (c : Conn) (k : Kernel) :
    RegOK st.epoll_fd (accept_branch st c k).calls := by
  cases h : c.accept_r with
  | none =>
    rw [accept_branch_none st c k h]
    apply RegOK.of_no_ctl
    simp [Call.is_epoll_ctl]
  | some n =>
    have hS : ∀ x ∈ (setnonblocking n c.fcntl (k.alloc n)).calls, x.is_epoll_ctl = false :=
      fun x hx => ((setnonblocking_frame n c.fcntl (k.alloc n)).2.2.2 x hx).2.2.1
    rw [accept_branch_some st c k n h]
    generalize (setnonblocking n c.fcntl (k.alloc n)).calls = S at hS ⊢
    generalize (setnonblocking n c.fcntl (k.alloc n)).k = k2
    have hnot : ∀ epfd op fd ev r, Call.epoll_ctl epfd op fd ev r ∉ S := by
      intro epfd op fd ev r hx
      have := hS _ hx
      simp [Call.is_epoll_ctl] at this
    split_ifs with hc
    · intro epfd op fd ev r hm
      simp only [List.cons_append, List.mem_cons, List.mem_append, List.mem_singleton,
        hnot, false_or, Call.epoll_ctl.injEq, reduceCtorEq, List.not_mem_nil, or_false] at hm
      obtain ⟨rfl, rfl, rfl, rfl, rfl⟩ := hm
      exact ⟨rfl, rfl, rfl, st.listen_fd, by simp⟩
    · intro epfd op fd ev r hm
      simp only [List.cons_append, List.mem_cons, List.mem_append, List.mem_singleton,
        hnot, false_or, Call.epoll_ctl.injEq, List.not_mem_nil, or_false, reduceCtorEq] at hm
      obtain ⟨rfl, rfl, rfl, rfl, rfl⟩ := hm
      exact ⟨rfl, rfl, rfl, st.listen_fd, by simp⟩

theorem for_events_regOK (events : List epoll_event) (conns : Nat → Conn) (todo n : Nat)
    (st : LoopState) (k : Kernel) :
    RegOK st.epoll_fd (for_events events conns todo n st k).calls := by
  refine for_events_ind events conns (fun st _ R => RegOK st.epoll_fd R.calls) ?_ ?_ ?_
    todo n st k
  · intro st k
    exact RegOK.of_no_ctl (by simp)
  · intro st k c st1 R hout hR
    have he := ((accept_branch_exits_well st c k).2.2 st1 hout).2
    rw [he] at hR
    exact (accept_branch_regOK st c k).append hR
  · intro st k c s _
    exact accept_branch_regOK st c k

theorem poll_iteration_regOK (st : LoopState) (r : Round) (k : Kernel) :
    RegOK st.epoll_fd (poll_iteration st r k).calls := by
  cases h : r.wait_r with
  | none =>
    rw [poll_iteration_none st r k h]
    exact RegOK.of_no_ctl (by simp [Call.is_epoll_ctl])
  | some b =>
    rw [poll_iteration_some st r k b h]
    have h1 : RegOK st.epoll_fd
        [Call.epoll_wait st.epoll_fd MAX_EVENTS (-1) ((b.take MAX_EVENTS).length : Int)] :=
      RegOK.of_no_ctl (by simp [Call.is_epoll_ctl])
    exact h1.append (for_events_regOK _ _ _ _ st k)

theorem event_loop_regOK (rounds : List Round) (st : LoopState) (k : Kernel) :
    RegOK st.epoll_fd (event_loop rounds st k).calls := by
  refine event_loop_ind (fun st _ R => RegOK st.epoll_fd R.calls) ?_ ?_ ?_ rounds st k
  · intro st k
    exact RegOK.of_no_ctl (by simp)
  · intro st k r st1 R hout hR
    have he := ((poll_iteration_exits_well st r k).2.2 st1 hout).2
    rw [he] at hR
    exact (poll_iteration_regOK st r k).append hR
  · intro st k r s _
    exact poll_iteration_regOK st r k

theorem main_setup_regs (w : World) (k : Kernel) :
    (∀ epfd op fd ev r, Call.epoll_ctl epfd op fd ev r ∈ (main_setup w k).calls →
      epfd = fd_result w.epoll_create1_r ∧ op = EPOLL_CTL_ADD ∧ ev = ⟨EPOLLIN, fd⟩
      ∧ (get_listen_socket w k).out = .returned fd)
    ∧ ∀ st, (main_setup w k).out = .returned st →
        st.epoll_fd = fd_result w.epoll_create1_r
        ∧ (get_listen_socket w k).out = .returned st.listen_fd := by
  obtain ⟨-, g2, -, -, g5⟩ := get_listen_socket_frame w k
  have hnot : ∀ epfd op fd ev r,
      Call.epoll_ctl epfd op fd ev r ∉ (get_listen_socket w k).calls := by
    intro epfd op fd ev r hx
    have := (g5 _ hx).1
    simp [Call.is_epoll_ctl] at this
  cases h : (get_listen_socket w k).out with
  | blocked => exact absurd h g2
  | exited s0 =>
    rw [main_setup_gls_exited w k s0 h]
    refine ⟨fun epfd op fd ev r hm => absurd hm (hnot _ _ _ _ _), by simp⟩
  | returned v =>
    by_cases hv : v = -1
    · subst hv
      rw [main_setup_gls_minus_one w k h]
      refine ⟨fun epfd op fd ev r hm => ?_, by simp⟩
      simp [hnot] at hm
    · cases he : w.epoll_create1_r with
      | none =>
        rw [main_setup_create_fails w k v h hv he]
        refine ⟨fun epfd op fd ev r hm => ?_, by simp⟩
        simp [hnot] at hm
      | some e =>
        cases hc : Sys.ctl_ok ((get_listen_socket w k).k.alloc e) e v w.epoll_ctl_ok with
        | false =>
          rw [main_setup_ctl_fails w k v e h hv he hc]
          refine ⟨fun epfd op fd ev r hm => ?_, by simp⟩
          simp only [List.mem_append, hnot, false_or, List.mem_cons, reduceCtorEq,
            Call.epoll_ctl.injEq, List.not_mem_nil, or_false] at hm
          obtain ⟨rfl, rfl, rfl, rfl, rfl⟩ := hm
          exact ⟨rfl, rfl, rfl, rfl⟩
        | true =>
          rw [main_setup_ok w k v e h hv he hc]
          refine ⟨fun epfd op fd ev r hm => ?_, ?_⟩
          · simp only [List.mem_append, hnot, false_or, List.mem_cons, reduceCtorEq,
              Call.epoll_ctl.injEq, List.not_mem_nil, or_false] at hm
            obtain ⟨rfl, rfl, rfl, rfl, rfl⟩ := hm
            exact ⟨rfl, rfl, rfl, rfl⟩
          · intro st hst
            simp only [Outcome.returned.injEq] at hst
            subst hst
            exact ⟨rfl, rfl⟩

theorem main_calls (w : World) (k : Kernel) :
    (∀ st, (main_setup w k).out = .returned st →
      (main w k).calls
        = (main_setup w k).calls ++ (event_loop w.rounds st (main_setup w k).k).calls
      ∧ (main w k).k = (event_loop w.rounds st (main_setup w k).k).k)
    ∧ (∀ s, (main_setup w k).out = .exited s →
        (main w k).calls = (main_setup w k).calls ∧ (main w k).k = (main_setup w k).k
        ∧ (main w k).out = .exited s) := by
  constructor
  · intro st h
    rw [main_eq, bind_returned h, event_loop_then]
    exact ⟨rfl, rfl⟩
  · intro s h
    rw [main_eq, bind_exited h]
    exact ⟨rfl, rfl, rfl⟩

theorem for_events_one (events : List epoll_event) (conns : Nat → Conn) (n : Nat)
    (st : LoopState) (k : Kernel)
    (hc : (events.getD 0 ⟨0, 0⟩).data_fd = st.listen_fd) :
    (for_events events conns 1 n st k).calls = (accept_branch st (conns n) k).calls := by
  rw [for_events_succ_pos events conns 0 n st k hc]
  cases h : (accept_branch st (conns n) k).out with
  | returned a => rw [bind_returned h]; simp [for_events, Proc.pure]
  | exited s => rw [bind_exited h]
  | blocked => rw [bind_blocked h]

/-- C7: every `epoll_ctl` call `main` makes is an `EPOLL_CTL_ADD` on the descriptor
`epoll_create1` returned, for a descriptor `fd` that is the value of `get_listen_socket`
or the result of an `accept`, with an event record whose interest set is `EPOLLIN`
(which does not contain `EPOLLET`) and whose `data.fd` is `fd`, although one record is
updated in place for all of them. In a poll iteration whose batch is one entry carrying
`listen_fd` and in which `accept` gives descriptor `c`, there is exactly one `accept`
call and exactly one `epoll_ctl` call, which registers `c` in that way. -/
theorem registrations_add_read_interest (w : World) (k : Kernel) :
    (∀ epfd op fd ev r, Call.epoll_ctl epfd op fd ev r ∈ (main w k).calls →
      epfd = fd_result w.epoll_create1_r ∧ op = EPOLL_CTL_ADD
      ∧ ev.events = EPOLLIN ∧ ev.data_fd = fd
      ∧ ((get_listen_socket w k).out = .returned fd
        ∨ ∃ l, Call.accept l fd ∈ (main w k).calls))
    ∧ Int.land EPOLLIN EPOLLET = 0
    ∧ (∀ (st : LoopState) (r : Round) (k1 : Kernel) (e : epoll_event) (c : Nat),
        r.wait_r = some [e] → e.data_fd = st.listen_fd → (r.conns 0).accept_r = some c →
        (poll_iteration st r k1).calls.filter Call.is_accept = [.accept st.listen_fd c]
        ∧ ∃ res, (poll_iteration st r k1).calls.filter Call.is_epoll_ctl
            = [.epoll_ctl st.epoll_fd EPOLL_CTL_ADD c ⟨EPOLLIN, c⟩ res]) := by
  refine ⟨?_, by decide, ?_⟩
  · intro epfd op fd ev r hm
    obtain ⟨m1, m2⟩ := main_setup_regs w k
    obtain ⟨c1, c2⟩ := main_calls w k
    cases h : (main_setup w k).out with
    | blocked => exact absurd h (main_setup_exits w k).1
    | exited s =>
      rw [(c2 s h).1] at hm
      obtain ⟨a, b, c, d⟩ := m1 epfd op fd ev r hm
      exact ⟨a, b, by rw [c], by rw [c], Or.inl d⟩
    | returned st =>
      rw [(c1 st h).1] at hm ⊢
      rcases List.mem_append.1 hm with hm | hm
      · obtain ⟨a, b, c, d⟩ := m1 epfd op fd ev r hm
        exact ⟨a, b, by rw [c], by rw [c], Or.inl d⟩
      · obtain ⟨a, b, c, l, d⟩ := event_loop_regOK w.rounds st (main_setup w k).k
          epfd op fd ev r hm
        exact ⟨a.trans (m2 st h).1, b, by rw [c], by rw [c],
          Or.inr ⟨l, List.mem_append_right _ d⟩⟩
  · intro st r k1 e c hw he hc
    have hS := (setnonblocking_frame c (r.conns 0).fcntl (k1.alloc c)).2.2.2
    have hS1 : (setnonblocking c (r.conns 0).fcntl (k1.alloc c)).calls.filter Call.is_accept
        = [] := List.filter_eq_nil_iff.2 (fun x hx => by simp [(hS x hx).2.1])
    have hS2 : (setnonblocking c (r.conns 0).fcntl (k1.alloc c)).calls.filter
        Call.is_epoll_ctl = [] := List.filter_eq_nil_iff.2 (fun x hx => by simp [(hS x hx).2.2.1])
    have htake : List.take MAX_EVENTS [e] = [e] := rfl
    have hcond : (([e] : List epoll_event).getD 0 ⟨0, 0⟩).data_fd = st.listen_fd := he
    rw [poll_iteration_some st r k1 [e] hw, htake]
    simp only [List.length_singleton]
    rw [for_events_one [e] r.conns 0 st k1 hcond, accept_branch_some st _ k1 c hc]
    split_ifs with hok
    · refine ⟨?_, 0, ?_⟩
      · simp [List.filter_cons, List.filter_append, hS1, Call.is_accept]
      · simp [List.filter_cons, List.filter_append, hS2, Call.is_epoll_ctl]
    · refine ⟨?_, -1, ?_⟩
      · simp [List.filter_cons, List.filter_append, hS1, Call.is_accept]
      · simp [List.filter_cons, List.filter_append, hS2, Call.is_epoll_ctl]

/-! ## The registry invariant -/

theorem registered_append (k : Kernel) (E : Int) (l : List Interest) :
    (Kernel.registered ⟨k.open_fds, k.fl, k.interest ++ l⟩ E)
      = k.registered E ++ (l.filter (fun i => i.epfd = E)).map Interest.fd := by
  simp [Kernel.registered]

theorem accept_branch_inv (st : LoopState) (c : Conn) (k : Kernel) (st1 : LoopState)
    (hinv : RegistryInv k st) (h : (accept_branch st c k).out = .returned st1) :
    RegistryInv (accept_branch st c k).k st1
    ∧ ∀ x ∈ (accept_branch st c k).calls, x.is_close = false := by
  cases ha : c.accept_r with
  | none =>
    rw [accept_branch_none st c k ha] at h
    simp at h
  | some n =>
    have hS := (setnonblocking_frame n c.fcntl (k.alloc n)).2.2.2
    rw [accept_branch_some st c k n ha] at h ⊢
    split_ifs at h ⊢ with hc
    · simp only [Outcome.returned.injEq] at h
      subst h
      refine ⟨⟨?_, ?_⟩, ?_⟩
      · simp only [Kernel.registered, List.filter_append, List.map_append, List.mem_append]
        exact Or.inl hinv.1
      · intro i hi
        simp only [List.mem_append, List.mem_singleton] at hi
        rcases hi with hi | rfl
        · exact List.mem_cons_of_mem _ (hinv.2 i hi)
        · simp
      · intro x hx
        simp only [List.cons_append, List.mem_cons, List.mem_append, List.not_mem_nil,
          or_false] at hx
        rcases hx with rfl | hx | rfl
        · rfl
        · exact (hS x hx).1
        · rfl

theorem for_events_inv (events : List epoll_event) (conns : Nat → Conn) (todo n : Nat)
    (st : LoopState) (k : Kernel) :
    RegistryInv k st → ∀ st1, (for_events events conns todo n st k).out = .returned st1 →
      RegistryInv (for_events events conns todo n st k).k st1
      ∧ ∀ x ∈ (for_events events conns todo n st k).calls, x.is_close = false := by
  refine for_events_ind events conns
    (fun st k R => RegistryInv k st → ∀ st1, R.out = .returned st1 →
      RegistryInv R.k st1 ∧ ∀ x ∈ R.calls, x.is_close = false) ?_ ?_ ?_ todo n st k
  · intro st k hinv st1 h
    simp only [Outcome.returned.injEq] at h
    subst h
    exact ⟨hinv, by simp⟩
  · intro st k c st1 R hout hR hinv st2 h2
    obtain ⟨a1, a2⟩ := accept_branch_inv st c k st1 hinv hout
    obtain ⟨b1, b2⟩ := hR a1 st2 h2
    refine ⟨b1, ?_⟩
    intro x hx
    rcases List.mem_append.1 hx with hx | hx
    · exact a2 x hx
    · exact b2 x hx
  · intro st k c s _ _ st1 h
    simp at h

theorem poll_iteration_inv (st : LoopState) (r : Round) (k : Kernel) (st1 : LoopState)
    (hinv : RegistryInv k st) (h : (poll_iteration st r k).out = .returned st1) :
    RegistryInv (poll_iteration st r k).k st1
    ∧ ∀ x ∈ (poll_iteration st r k).calls, x.is_close = false := by
  cases hw : r.wait_r with
  | none =>
    rw [poll_iteration_none st r k hw] at h
    simp at h
  | some b =>
    rw [poll_iteration_some st r k b hw] at h ⊢
    obtain ⟨a1, a2⟩ := for_events_inv _ _ _ _ st k hinv st1 h
    refine ⟨a1, ?_⟩
    intro x hx
    rcases List.mem_cons.1 hx with rfl | hx
    · rfl
    · exact a2 x hx

theorem main_setup_inv (w : World) (st : LoopState)
    (h : (main_setup w Kernel.boot).out = .returned st) :
    RegistryInv (main_setup w Kernel.boot).k st := by
  obtain ⟨g1, g2, -, -, -⟩ := get_listen_socket_frame w Kernel.boot
  cases hg : (get_listen_socket w Kernel.boot).out with
  | blocked => exact absurd hg g2
  | exited s0 =>
    rw [main_setup_gls_exited w _ s0 hg] at h
    simp at h
  | returned v =>
    by_cases hv : v = -1
    · subst hv
      rw [main_setup_gls_minus_one w _ hg] at h
      simp at h
    · cases he : w.epoll_create1_r with
      | none =>
        rw [main_setup_create_fails w _ v hg hv he] at h
        simp at h
      | some e =>
        cases hc : Sys.ctl_ok ((get_listen_socket w Kernel.boot).k.alloc e) e v
            w.epoll_ctl_ok with
        | false =>
          rw [main_setup_ctl_fails w _ v e hg hv he hc] at h
          simp at h
        | true =>
          rw [main_setup_ok w _ v e hg hv he hc] at h ⊢
          simp only [Outcome.returned.injEq] at h
          subst h
          have hi : (get_listen_socket w Kernel.boot).k.interest = [] := g1
          have hvo : v ∈ (e : Int) :: (get_listen_socket w Kernel.boot).k.open_fds := by
            simp only [Sys.ctl_ok, Kernel.alloc, Bool.and_eq_true, decide_eq_true_eq] at hc
            exact hc.1.2
          refine ⟨?_, ?_⟩
          · simp [Kernel.registered, hi]
          · intro i hi'
            simp only [hi, List.nil_append, List.mem_singleton] at hi'
            subst hi'
            exact hvo

theorem loopHead_inv (w : World) (k : Kernel) (st : LoopState) (h : LoopHead w k st) :
    RegistryInv k st := by
  induction h with
  | start st h => exact main_setup_inv w st h
  | step k st r st1 _ hout ih => exact (poll_iteration_inv st r k st1 ih hout).1

/-- C9: in every state at the head of the loop the listening descriptor is registered
in the epoll instance and every registered descriptor is open; no iteration started there
issues an `EPOLL_CTL_DEL`, and an iteration that hands over to the next one makes no
`close` call at all (and ends in a state at the head of the loop again). -/
theorem registry_invariant (w : World) (k : Kernel) (st : LoopState) (h : LoopHead w k st) :
    st.listen_fd ∈ k.registered st.epoll_fd
    ∧ (∀ d ∈ k.registered st.epoll_fd, d ∈ k.open_fds)
    ∧ (∀ (r : Round) epfd op fd ev res,
        Call.epoll_ctl epfd op fd ev res ∈ (poll_iteration st r k).calls →
        op ≠ EPOLL_CTL_DEL)
    ∧ (∀ (r : Round) (st1 : LoopState), (poll_iteration st r k).out = .returned st1 →
        (∀ x ∈ (poll_iteration st r k).calls, x.is_close = false)
        ∧ LoopHead w (poll_iteration st r k).k st1) := by
  have hinv := loopHead_inv w k st h
  refine ⟨hinv.1, ?_, ?_, ?_⟩
  · intro d hd
    simp only [Kernel.registered, List.mem_map, List.mem_filter] at hd
    obtain ⟨i, ⟨hi, -⟩, rfl⟩ := hd
    exact hinv.2 i hi
  · intro r epfd op fd ev res hm
    obtain ⟨-, hop, -, -⟩ := poll_iteration_regOK st r k epfd op fd ev res hm
    rw [hop]
    decide
  · intro r st1 hout
    exact ⟨(poll_iteration_inv st r k st1 hinv hout).2, LoopHead.step k st r st1 h hout⟩

/-! ## Descriptors open at exit -/

theorem subperm_erase_of_cons {l m : List Int} {a : Int} (h : List.Subperm l (a :: m)) :
    List.Subperm (l.erase a) m := by
  have := List.Subperm.erase a h
  simpa using this

theorem openInv_close_both {k : Kernel} {st : LoopState} (h : OpenInv k st) (fl : Int → Nat) :
    ExitOpen ⟨(k.open_fds.erase st.listen_fd).erase st.epoll_fd, fl, k.interest⟩ := by
  obtain ⟨cl, h1, h2⟩ := h
  simp only [ExitOpen, h1, List.tail_cons]
  exact subperm_erase_of_cons (subperm_erase_of_cons h2)

theorem openInv_close_both' {k : Kernel} {st : LoopState} (h : OpenInv k st) (fl : Int → Nat) :
    ExitOpen ⟨(k.open_fds.erase st.epoll_fd).erase st.listen_fd, fl, k.interest⟩ := by
  obtain ⟨cl, h1, h2⟩ := h
  simp only [ExitOpen, h1, List.tail_cons]
  have h3 : List.Subperm k.open_fds
      (st.epoll_fd :: st.listen_fd :: (cl ++ Kernel.boot.open_fds)) :=
    h2.trans (List.Perm.swap _ _ _).subperm
  exact subperm_erase_of_cons (subperm_erase_of_cons h3)

theorem accept_branch_open (st : LoopState) (c : Conn) (k : Kernel) (hinv : OpenInv k st) :
    (∀ st1, (accept_branch st c k).out = .returned st1 → OpenInv (accept_branch st c k).k st1)
    ∧ (∀ s, (accept_branch st c k).out = .exited s → ExitOpen (accept_branch st c k).k) := by
  cases ha : c.accept_r with
  | none =>
    rw [accept_branch_none st c k ha]
    exact ⟨by simp, fun _ _ => openInv_close_both hinv _⟩
  | some n =>
    rw [accept_branch_some st c k n ha]
    split_ifs with hc
    · refine ⟨?_, by simp⟩
      intro st1 h
      simp only [Outcome.returned.injEq] at h
      subst h
      obtain ⟨cl, h1, h2⟩ := hinv
      refine ⟨cl ++ [(n : Int)], by simp [h1], ?_⟩
      have h3 : List.Subperm ((n : Int) :: k.open_fds)
          ((n : Int) :: st.listen_fd :: st.epoll_fd :: (cl ++ Kernel.boot.open_fds)) :=
        (List.subperm_cons _).2 h2
      refine h3.trans (List.Perm.subperm ?_)
      have : st.listen_fd :: st.epoll_fd :: (cl ++ [(n : Int)] ++ Kernel.boot.open_fds)
          = (st.listen_fd :: st.epoll_fd :: cl) ++ (n : Int) :: Kernel.boot.open_fds := by
        simp
      rw [this]
      exact (@List.perm_middle Int (n : Int) (st.listen_fd :: st.epoll_fd :: cl)
        Kernel.boot.open_fds).symm
    · exact ⟨by simp, fun _ _ => openInv_close_both hinv _⟩

theorem for_events_open (events : List epoll_event) (conns : Nat → Conn) (todo n : Nat)
    (st : LoopState) (k : Kernel) :
    OpenInv k st →
      (∀ st1, (for_events events conns todo n st k).out = .returned st1 →
        OpenInv (for_events events conns todo n st k).k st1)
      ∧ (∀ s, (for_events events conns todo n st k).out = .exited s →
        ExitOpen (for_events events conns todo n st k).k) := by
  refine for_events_ind events conns
    (fun st k R => OpenInv k st →
      (∀ st1, R.out = .returned st1 → OpenInv R.k st1)
      ∧ (∀ s, R.out = .exited s → ExitOpen R.k)) ?_ ?_ ?_ todo n st k
  · intro st k hinv
    refine ⟨?_, by simp⟩
    intro st1 h
    simp only [Outcome.returned.injEq] at h
    subst h
    exact hinv
  · intro st k c st1 R hout hR hinv
    exact hR ((accept_branch_open st c k hinv).1 st1 hout)
  · intro st k c s hout hinv
    exact ⟨by simp, fun _ _ => (accept_branch_open st c k hinv).2 s hout⟩

theorem poll_iteration_open (st : LoopState) (r : Round) (k : Kernel) (hinv : OpenInv k st) :
    (∀ st1, (poll_iteration st r k).out = .returned st1 → OpenInv (poll_iteration st r k).k st1)
    ∧ (∀ s, (poll_iteration st r k).out = .exited s → ExitOpen (poll_iteration st r k).k) := by
  cases hw : r.wait_r with
  | none =>
    rw [poll_iteration_none st r k hw]
    exact ⟨by simp, fun _ _ => openInv_close_both' hinv _⟩
  | some b =>
    rw [poll_iteration_some st r k b hw]
    exact for_events_open _ _ _ _ st k hinv

theorem event_loop_open (rounds : List Round) (st : LoopState) (k : Kernel) :
    OpenInv k st → ∀ s, (event_loop rounds st k).out = .exited s →
      ExitOpen (event_loop rounds st k).k := by
  refine event_loop_ind
    (fun st k R => OpenInv k st → ∀ s, R.out = .exited s → ExitOpen R.k) ?_ ?_ ?_ rounds st k
  · intro st k _ s h
    simp at h
  · intro st k r st1 R hout hR hinv
    exact hR ((poll_iteration_open st r k hinv).1 st1 hout)
  · intro st k r s hout hinv s' _
    exact (poll_iteration_open st r k hinv).2 s hout

theorem main_setup_open (w : World) :
    (∀ st, (main_setup w Kernel.boot).out = .returned st →
      OpenInv (main_setup w Kernel.boot).k st)
    ∧ (∀ s, (main_setup w Kernel.boot).out = .exited s →
      (∃ fd, Call.setsockopt fd (-1) ∈ (main_setup w Kernel.boot).calls)
      ∨ ExitOpen (main_setup w Kernel.boot).k) := by
  obtain ⟨g1, g2, g3, g4, -⟩ := get_listen_socket_frame w Kernel.boot
  have hi : (get_listen_socket w Kernel.boot).k.interest = [] := g1
  cases hg : (get_listen_socket w Kernel.boot).out with
  | blocked => exact absurd hg g2
  | exited s0 =>
    rw [main_setup_gls_exited w _ s0 hg]
    refine ⟨by simp, fun s _ => ?_⟩
    rcases (g4 s0 hg).2 with h | h
    · exact Or.inl h
    · exact Or.inr (by simpa [ExitOpen, hi] using h)
  | returned v =>
    have hopen : List.Subperm ((get_listen_socket w Kernel.boot).k.open_fds.erase v)
        Kernel.boot.open_fds := by
      rcases g3 v hg with ⟨h, -, -⟩ | ⟨-, h⟩
      · rw [h]; exact List.erase_subperm _ _
      · rw [h, List.erase_cons_head]
    by_cases hv : v = -1
    · subst hv
      rw [main_setup_gls_minus_one w _ hg]
      refine ⟨by simp, fun s _ => Or.inr ?_⟩
      rcases g3 (-1) hg with ⟨h, -, -⟩ | ⟨⟨n, hn⟩, -⟩
      · simp only [ExitOpen, hi, h, List.map_nil, List.tail_nil, List.nil_append]
        exact List.Subperm.refl _
      · omega
    · cases he : w.epoll_create1_r with
      | none =>
        rw [main_setup_create_fails w _ v hg hv he]
        exact ⟨by simp, fun s _ => Or.inr (by simpa [ExitOpen, hi] using hopen)⟩
      | some e =>
        cases hc : Sys.ctl_ok ((get_listen_socket w Kernel.boot).k.alloc e) e v
            w.epoll_ctl_ok with
        | false =>
          rw [main_setup_ctl_fails w _ v e hg hv he hc]
          exact ⟨by simp, fun s _ => Or.inr (by simpa [ExitOpen, hi] using hopen)⟩
        | true =>
          rw [main_setup_ok w _ v e hg hv he hc]
          refine ⟨?_, by simp⟩
          intro st h
          simp only [Outcome.returned.injEq] at h
          subst h
          refine ⟨[], by simp [hi], ?_⟩
          simp only [List.nil_append]
          rcases g3 v hg with ⟨h, -, -⟩ | ⟨-, h⟩
          · rw [h]
            exact (List.Subperm.refl _).cons_right _
          · rw [h]
            exact (List.Perm.swap _ _ _).subperm

/-- C4, amended: when `main`, started with only the standard descriptors open, ends
in `exit(1)` and no `setsockopt` call failed, the descriptors open at exit are, counted
with multiplicity, among the inherited ones and the clients whose registration succeeded
(the registry entries after the first, which is the listening descriptor's): the
candidate or listening socket, the epoll descriptor and a client whose registration
failed have been closed. -/
theorem exit_leaves_only_registered_clients (w : World) (s : Int)
    (hexit : (main w Kernel.boot).out = .exited s)
    (hsso : ∀ c ∈ (main w Kernel.boot).calls, c.setsockopt_failed = false) :
    List.Subperm (main w Kernel.boot).k.open_fds
        (((main w Kernel.boot).k.interest.map Interest.fd).tail ++ Kernel.boot.open_fds)
    ∧ ∀ d ∈ (main w Kernel.boot).k.open_fds,
        d ∈ ((main w Kernel.boot).k.interest.map Interest.fd).tail
        ∨ d ∈ Kernel.boot.open_fds := by
  have key : ExitOpen (main w Kernel.boot).k := by
    obtain ⟨c1, c2⟩ := main_calls w Kernel.boot
    obtain ⟨m1, m2⟩ := main_setup_open w
    cases h : (main_setup w Kernel.boot).out with
    | blocked => exact absurd h (main_setup_exits w _).1
    | exited s0 =>
      rw [(c2 s0 h).2.1]
      rcases m2 s0 h with ⟨fd, hfd⟩ | h2
      · rw [← (c2 s0 h).1] at hfd
        have := hsso _ hfd
        simp [Call.setsockopt_failed] at this
      · exact h2
    | returned st =>
      rw [(c1 st h).2]
      have hout : (event_loop w.rounds st (main_setup w Kernel.boot).k).out = .exited s := by
        rw [main_eq, bind_returned h, event_loop_then] at hexit
        cases h2 : (event_loop w.rounds st (main_setup w Kernel.boot).k).out with
        | returned u => exact absurd h2 ((event_loop_exits_well _ _ _).2 u)
        | exited s2 => simp only [h2, Outcome.exited.injEq] at hexit; rw [hexit]
        | blocked => simp [h2] at hexit
      exact event_loop_open w.rounds st _ (m1 st h) s hout
  refine ⟨key, fun d hd => ?_⟩
  exact List.mem_append.1 (key.subset hd)

/-! ## The program on concrete inputs -/

/-- C1, the code at two batches of two entries (the first 14 calls are the start-up and
the round that accepts client 5). Batch `[listen_fd, client 5]` with one pending
connection: the test on line 83 reads entry 0 in both inner iterations, so `accept` is
called twice, the second call fails and the process exits. Batch
`[client 5, listen_fd]`: `accept` is not called at all. -/
theorem accept_test_reads_entry_zero :
    (main world_listen_then_client Kernel.boot).calls.drop 14
      = [.epoll_wait 4 MAX_EVENTS (-1) 2,
          .accept 3 6, .fcntl_getfl 6 2, .fcntl_setfl 6 2050 0,
          .epoll_ctl 4 EPOLL_CTL_ADD 6 ⟨EPOLLIN, 6⟩ 0,
          .accept 3 (-1), .close 3 0, .close 4 0, .exit 1]
    ∧ (main world_listen_then_client Kernel.boot).out = .exited 1
    ∧ (main world_client_then_listen Kernel.boot).calls.drop 14
      = [.epoll_wait 4 MAX_EVENTS (-1) 2]
    ∧ (main world_client_then_listen Kernel.boot).out = .blocked := by
  decide

/-- C2, the code when `getaddrinfo` fails with `EAI_MEMORY`: `get_listen_socket` returns
`-10` without having created a socket, and `main`, which only tests for `-1`, goes on to
create the epoll instance and to pass `-10` to `epoll_ctl` and `close`. -/
theorem resolution_error_used_as_descriptor :
    (get_listen_socket world_resolution_fails Kernel.boot).out = .returned (-10)
    ∧ (get_listen_socket world_resolution_fails Kernel.boot).calls = [.getaddrinfo (-10)]
    ∧ (main world_resolution_fails Kernel.boot).calls
      = [.getaddrinfo (-10), .epoll_create1 0 3,
          .epoll_ctl 3 EPOLL_CTL_ADD (-10) ⟨EPOLLIN, -10⟩ (-1),
          .close 3 0, .close (-10) (-1), .exit 1] := by
  decide

/-- C4 as stated fails: client 5 is accepted and registered, then `epoll_wait` fails; the
process closes descriptors 4 and 3 and exits while descriptor 5 is still open. -/
theorem client_open_at_exit :
    (main world_wait_fails Kernel.boot).out = .exited 1
    ∧ (main world_wait_fails Kernel.boot).calls.drop 9
      = [.epoll_wait 4 MAX_EVENTS (-1) 1,
          .accept 3 5, .fcntl_getfl 5 2, .fcntl_setfl 5 2050 0,
          .epoll_ctl 4 EPOLL_CTL_ADD 5 ⟨EPOLLIN, 5⟩ 0,
          .epoll_wait 4 MAX_EVENTS (-1) (-1), .close 4 0, .close 3 0, .exit 1]
    ∧ (main world_wait_fails Kernel.boot).k.open_fds = [5, 0, 1, 2] := by
  decide

/-- C4, amended, at the run in which client 5 is registered and `epoll_wait` then fails. -/
theorem exit_leaves_only_registered_clients_witness :
    (main world_wait_fails Kernel.boot).out = .exited 1
    ∧ (∀ c ∈ (main world_wait_fails Kernel.boot).calls, c.setsockopt_failed = false)
    ∧ (List.Subperm (main world_wait_fails Kernel.boot).k.open_fds
        (((main world_wait_fails Kernel.boot).k.interest.map Interest.fd).tail
          ++ Kernel.boot.open_fds)
      ∧ ∀ d ∈ (main world_wait_fails Kernel.boot).k.open_fds,
        d ∈ ((main world_wait_fails Kernel.boot).k.interest.map Interest.fd).tail
        ∨ d ∈ Kernel.boot.open_fds) :=
  ⟨by decide, by decide,
    exit_leaves_only_registered_clients world_wait_fails 1 (by decide) (by decide)⟩

/-- C5 at a list of four candidates: `socket` fails for the first, `bind` fails for the
second, the third succeeds, the fourth is never tried. -/
theorem first_bindable_candidate_is_used_witness :
    (world_third_candidate.gai_r = 0
    ∧ ∀ p ∈ world_third_candidate.bind_addr_list, p.setsockopt_ok = true)
    ∧ (bind_loop world_third_candidate.bind_addr_list 0 Kernel.boot).out
        = .returned (3, true)
    ∧ (bind_loop world_third_candidate.bind_addr_list 0 Kernel.boot).calls
        = [.socket ai4 (-1),
            .socket ai4 3, .setsockopt 3 0, .bind 3 ai4 (-1), .close 3 0,
            .socket ai4 3, .setsockopt 3 0, .bind 3 ai4 0] :=
  ⟨⟨rfl, by decide⟩,
    ((first_bindable_candidate_is_used world_third_candidate Kernel.boot rfl
      (by decide)).1 [⟨ai4, none, true, true⟩, ⟨ai4, some 3, true, false⟩]
      [⟨ai4, some 4, true, true⟩] ⟨ai4, some 3, true, true⟩ 3 rfl (by decide) rfl rfl).1,
    ((first_bindable_candidate_is_used world_third_candidate Kernel.boot rfl
      (by decide)).1 [⟨ai4, none, true, true⟩, ⟨ai4, some 3, true, false⟩]
      [⟨ai4, some 4, true, true⟩] ⟨ai4, some 3, true, true⟩ 3 rfl (by decide) rfl rfl).2.1⟩

/-- C8, the code when `F_SETFL` fails on a freshly accepted client: `setnonblocking`
returns `-1`, the result is not looked at, and descriptor 5 is registered while open and
still in blocking mode (flag word `O_RDWR`); the loop carries on. -/
theorem blocking_client_is_registered :
    (main world_setfl_fails Kernel.boot).calls.drop 9
      = [.epoll_wait 4 MAX_EVENTS (-1) 1,
          .accept 3 5, .fcntl_getfl 5 2, .fcntl_setfl 5 2050 (-1),
          .epoll_ctl 4 EPOLL_CTL_ADD 5 ⟨EPOLLIN, 5⟩ 0]
    ∧ (main world_setfl_fails Kernel.boot).k.registered 4 = [3, 5]
    ∧ (main world_setfl_fails Kernel.boot).k.open_fds = [5, 4, 3, 0, 1, 2]
    ∧ (main world_setfl_fails Kernel.boot).k.fl 5 = O_RDWR
    ∧ (main world_setfl_fails Kernel.boot).k.nonblocking 5 = false
    ∧ (main world_setfl_fails Kernel.boot).k.nonblocking 3 = true
    ∧ (main world_setfl_fails Kernel.boot).out = .blocked := by
  decide

/-- C9 at the state the start-up reaches when nothing fails: socket 3, epoll instance 4. -/
theorem registry_invariant_witness :
    LoopHead (world_up []) (main_setup (world_up []) Kernel.boot).k ⟨3, 4, ⟨EPOLLIN, 3⟩⟩
    ∧ (3 : Int) ∈ (main_setup (world_up []) Kernel.boot).k.registered 4
    ∧ ∀ d ∈ (main_setup (world_up []) Kernel.boot).k.registered 4,
        d ∈ (main_setup (world_up []) Kernel.boot).k.open_fds :=
  ⟨LoopHead.start _ rfl,
    (registry_invariant (world_up []) _ ⟨3, 4, ⟨EPOLLIN, 3⟩⟩ (LoopHead.start _ rfl)).1,
    (registry_invariant (world_up []) _ ⟨3, 4, ⟨EPOLLIN, 3⟩⟩ (LoopHead.start _ rfl)).2.1⟩

/-- C10, the code on two inputs. The port is taken (`bind` fails for the only
candidate): socket 3 is closed on line 149 and again on line 159, the second `close`
gets `EBADF`. The candidate list is empty: `listen_fd` still holds its initial value 0
and `close(0)` closes standard input, which the program did not open. -/
theorem close_on_descriptor_not_held :
    (main world_port_taken Kernel.boot).calls
      = [.getaddrinfo 0, .socket ai4 3, .setsockopt 3 0, .bind 3 ai4 (-1),
          .close 3 0, .close 3 (-1), .exit 1]
    ∧ (main world_no_candidate Kernel.boot).calls
      = [.getaddrinfo 0, .close 0 0, .exit 1]
    ∧ (main world_no_candidate Kernel.boot).k.open_fds = [1, 2] := by
  decide

end Server
